import Mathlib

/-!
Verification development for the metered-ca/webrtc-examples repository.

The definitions below are a shallow embedding of the TypeScript sources:
* `GroupCall`   — the per-remote-peer session orchestrator of
  `examples/group-video-call/src/hooks/useWebRTC.ts` (the
  expanded-video-call `Controls.tsx` hook has the same queueing logic);
* `PcEvents`    — the `onconnectionstatechange` callback installed on each
  `RTCPeerConnection`;
* `MeshServer`  — the mesh signaling server (`server.ts` of the
  group-video-call example);
* `Broadcaster` — the client state of
  `examples/broadcast/src/hooks/useBroadcasterWebRTC.ts`;
* `BServer`     — the broadcast signaling server embedded in
  `examples/broadcast/src/hooks/useSignaling.ts`;
* `BApp`        — the broadcaster-side message dispatch of the broadcast
  example `App.tsx`.

JavaScript `Map` objects are modelled as association lists with `Map.set`
(replace in place, else append), `Map.get` and `Map.delete` semantics.
-/

/-- JS `Map.set`: replace the value of an existing key in place, otherwise
append the new entry at the end (JS maps preserve insertion order). -/
def mapSet {α : Type} (k : String) (v : α) : List (String × α) → List (String × α)
  | [] => [(k, v)]
  | (k', v') :: rest => if k' = k then (k, v) :: rest else (k', v') :: mapSet k v rest

/-- JS `Map.get`: first value stored under the key, if any. -/
def mapGet {α : Type} (k : String) : List (String × α) → Option α
  | [] => none
  | (k', v') :: rest => if k' = k then some v' else mapGet k rest

/-- JS `Map.delete`: remove the entry stored under the key. -/
def mapDelete {α : Type} (k : String) (l : List (String × α)) : List (String × α) :=
  l.filter (fun e => !(e.1 = k))

/-- Number of entries stored under a key (1 or 0 for a real JS map). -/
def countKey {α : Type} (k : String) (l : List (String × α)) : Nat :=
  (l.filter (fun e => e.1 = k)).length

theorem mapGet_mapSet_self {α : Type} (k : String) (v : α) (l : List (String × α)) :
    mapGet k (mapSet k v l) = some v := by
  induction l with
  | nil => simp [mapSet, mapGet]
  | cons e rest ih =>
    by_cases h : e.1 = k
    · simp [mapSet, mapGet, h]
    · simp [mapSet, mapGet, h, ih]

theorem mapGet_mapSet_ne {α : Type} (k k' : String) (v : α) (l : List (String × α))
    (h : k' ≠ k) : mapGet k' (mapSet k v l) = mapGet k' l := by
  have hk : ¬ k = k' := fun hh => h hh.symm
  induction l with
  | nil => simp [mapSet, mapGet, hk]
  | cons e rest ih =>
    by_cases he : e.1 = k
    · have he' : ¬ e.1 = k' := by
        intro hk'; exact h (hk'.symm.trans he)
      simp [mapSet, mapGet, he, he', hk]
    · by_cases he' : e.1 = k'
      · simp [mapSet, mapGet, he, he', h]
      · simp [mapSet, mapGet, he, he', h, ih]

theorem mapGet_mapDelete_self {α : Type} (k : String) (l : List (String × α)) :
    mapGet k (mapDelete k l) = none := by
  induction l with
  | nil => simp [mapDelete, mapGet]
  | cons e rest ih =>
    by_cases h : e.1 = k
    · simpa [mapDelete, List.filter, h] using ih
    · simp only [mapDelete, List.filter, h] at ih ⊢
      simpa [mapGet, h] using ih

theorem mapGet_mapDelete_ne {α : Type} (k k' : String) (l : List (String × α))
    (h : k' ≠ k) : mapGet k' (mapDelete k l) = mapGet k' l := by
  induction l with
  | nil => simp [mapDelete, mapGet]
  | cons e rest ih =>
    by_cases he : e.1 = k
    · have he' : ¬ e.1 = k' := by
        intro hk'; exact h (hk'.symm.trans he)
      have hk : ¬ k = k' := fun hh => h hh.symm
      simp only [mapDelete, List.filter, he] at ih ⊢
      simpa [mapGet, he, he', hk] using ih
    · simp only [mapDelete, List.filter, he] at ih ⊢
      by_cases he' : e.1 = k'
      · simp [mapGet, he, he']
      · simpa [mapGet, he, he'] using ih

theorem countKey_mapSet {α : Type} (k : String) (v : α) (l : List (String × α)) :
    countKey k (mapSet k v l) = if countKey k l = 0 then 1 else countKey k l := by
  induction l with
  | nil => simp [mapSet, countKey]
  | cons e rest ih =>
    by_cases h : e.1 = k
    · simp [mapSet, countKey, List.filter, h]
    · simp only [mapSet, if_neg h, countKey, List.filter, h] at ih ⊢
      simpa [h] using ih

/-- A key absent from the map means no entry carries it. -/
theorem mapGet_none_keys {α : Type} (k : String) (l : List (String × α))
    (h : mapGet k l = none) : ∀ e ∈ l, ¬ e.1 = k := by
  induction l with
  | nil => intro e he; cases he
  | cons a rest ih =>
    intro e he
    by_cases ha : a.1 = k
    · simp [mapGet, ha] at h
    · rcases List.mem_cons.mp he with rfl | hmem
      · exact ha
      · simp only [mapGet, ha, if_neg] at h
        exact ih h e hmem

/-- Setting a fresh key appends the entry at the end. -/
theorem mapSet_append_fresh {α : Type} (k : String) (v : α) (l : List (String × α))
    (h : ∀ e ∈ l, ¬ e.1 = k) : mapSet k v l = l ++ [(k, v)] := by
  induction l with
  | nil => simp [mapSet]
  | cons a rest ih =>
    have ha : ¬ a.1 = k := h a (List.mem_cons_self a rest)
    have htail := ih (fun e he => h e (List.mem_cons_of_mem a he))
    simp [mapSet, ha, htail]

namespace GroupCall

/-- Opaque ICE-candidate payload (`RTCIceCandidateInit`). -/
abbrev Candidate := Nat

/-- Signaling messages emitted through `sendSignaling` (the `to` field). -/
inductive SignalOut
  | offerMsg (target : String)
  | answerMsg (target : String)
  deriving DecidableEq, Repr

/-- The observable state of one `RTCPeerConnection`: whether
`setRemoteDescription` has been called, the candidates passed to
`addIceCandidate` in call order, and an allocation identifier
distinguishing distinct `new RTCPeerConnection` instances. -/
structure RTCPeerConn where
  instanceId : Nat
  hasRemoteDescription : Bool
  appliedCandidates : List Candidate
  deriving DecidableEq, Repr

/-- State held by the `useWebRTC` hook of the group-video-call example:
`peerConnectionsRef` and `pendingCandidatesRef`, plus an instance counter
and the outbox of signaling messages sent so far. -/
structure HookState where
  peerConnections : List (String × RTCPeerConn)
  pendingCandidates : List (String × List Candidate)
  nextInstance : Nat
  outbox : List SignalOut
  deriving DecidableEq, Repr

def HookState.init : HookState := ⟨[], [], 0, []⟩

/-- Source `createPeerConnection(remotePeerId, initiator)`: early return when a
connection already exists; otherwise allocate a fresh `RTCPeerConnection`,
store it, and (for the initiator) send an offer. -/
def createPeerConnection (remotePeerId : String) (initiator : Bool) (s : HookState) :
    HookState :=
  if (mapGet remotePeerId s.peerConnections).isSome then s
  else
    let pc : RTCPeerConn := ⟨s.nextInstance, false, []⟩
    let s1 : HookState :=
      { s with
        peerConnections := mapSet remotePeerId pc s.peerConnections
        nextInstance := s.nextInstance + 1 }
    if initiator then { s1 with outbox := s1.outbox ++ [.offerMsg remotePeerId] } else s1

/-- Source `handleOffer(remotePeerId, sdp)`: create the connection when missing,
apply the remote description, drain the pending-candidate queue in order,
delete the queue, and send an answer. -/
def handleOffer (remotePeerId : String) (s : HookState) : HookState :=
  let s1 :=
    if (mapGet remotePeerId s.peerConnections).isSome then s
    else createPeerConnection remotePeerId false s
  match mapGet remotePeerId s1.peerConnections with
  | none => s1
  | some pc =>
    let pending := (mapGet remotePeerId s1.pendingCandidates).getD []
    let pc' : RTCPeerConn :=
      { pc with
        hasRemoteDescription := true
        appliedCandidates := pc.appliedCandidates ++ pending }
    { s1 with
      peerConnections := mapSet remotePeerId pc' s1.peerConnections
      pendingCandidates := mapDelete remotePeerId s1.pendingCandidates
      outbox := s1.outbox ++ [.answerMsg remotePeerId] }

/-- Source `handleAnswer(remotePeerId, sdp)`: no-op when no connection exists;
otherwise apply the remote description and drain the queue. -/
def handleAnswer (remotePeerId : String) (s : HookState) : HookState :=
  match mapGet remotePeerId s.peerConnections with
  | none => s
  | some pc =>
    let pending := (mapGet remotePeerId s.pendingCandidates).getD []
    let pc' : RTCPeerConn :=
      { pc with
        hasRemoteDescription := true
        appliedCandidates := pc.appliedCandidates ++ pending }
    { s with
      peerConnections := mapSet remotePeerId pc' s.peerConnections
      pendingCandidates := mapDelete remotePeerId s.pendingCandidates }

/-- Source `handleIceCandidate(remotePeerId, candidate)`: apply immediately when
the connection exists and a remote description is set, otherwise append
the candidate to the pending queue for that peer. -/
def handleIceCandidate (remotePeerId : String) (c : Candidate) (s : HookState) :
    HookState :=
  let queueIt : HookState :=
    { s with
      pendingCandidates :=
        mapSet remotePeerId
          ((mapGet remotePeerId s.pendingCandidates).getD [] ++ [c])
          s.pendingCandidates }
  match mapGet remotePeerId s.peerConnections with
  | none => queueIt
  | some pc =>
    if pc.hasRemoteDescription then
      { s with
        peerConnections :=
          mapSet remotePeerId
            { pc with appliedCandidates := pc.appliedCandidates ++ [c] }
            s.peerConnections }
    else queueIt

/-- One step of the interleaving considered by the candidate-queue claim:
an ICE candidate from the remote peer, the application of its remote
description via `handleOffer` or `handleAnswer`, or a local
`createPeerConnection` call. -/
inductive PeerEvent
  | candidate (c : Candidate)
  | applyOffer
  | applyAnswer
  | create (initiator : Bool)
  deriving DecidableEq, Repr

def stepPeerEvent (p : String) (s : HookState) : PeerEvent → HookState
  | .candidate c => handleIceCandidate p c s
  | .applyOffer => handleOffer p s
  | .applyAnswer => handleAnswer p s
  | .create i => createPeerConnection p i s

def runPeerEvents (p : String) (s : HookState) : List PeerEvent → HookState
  | [] => s
  | e :: es => runPeerEvents p (stepPeerEvent p s e) es

/-- The candidates delivered by a sequence of events, in arrival order. -/
def eventCandidates : List PeerEvent → List Candidate
  | [] => []
  | .candidate c :: es => c :: eventCandidates es
  | .applyOffer :: es => eventCandidates es
  | .applyAnswer :: es => eventCandidates es
  | .create _ :: es => eventCandidates es

/-- Candidates applied to the connection for peer `p`, in application order. -/
def appliedOf (s : HookState) (p : String) : List Candidate :=
  ((mapGet p s.peerConnections).map (fun pc => pc.appliedCandidates)).getD []

/-- Candidates still queued for peer `p`. -/
def pendingOf (s : HookState) (p : String) : List Candidate :=
  (mapGet p s.pendingCandidates).getD []

/-- Whether a remote description has been applied for peer `p`. -/
def hasRemoteDesc (s : HookState) (p : String) : Bool :=
  ((mapGet p s.peerConnections).map (fun pc => pc.hasRemoteDescription)).getD false

/-- Invariant tying the hook state at peer `p` to the candidates seen so
far: nothing is lost or reordered, and once a remote description is in
place the queue has been drained and deleted. -/
def CandInv (p : String) (s : HookState) (seen : List Candidate) : Prop :=
  appliedOf s p ++ pendingOf s p = seen
    ∧ (hasRemoteDesc s p = true → mapGet p s.pendingCandidates = none)

theorem candInv_step (p : String) (s : HookState) (seen : List Candidate)
    (e : PeerEvent) (h : CandInv p s seen) :
    CandInv p (stepPeerEvent p s e) (seen ++ eventCandidates [e]) := by
  obtain ⟨h1, h2⟩ := h
  cases e with
  | candidate c =>
    simp only [stepPeerEvent, handleIceCandidate, eventCandidates]
    cases hpc : mapGet p s.peerConnections with
    | none =>
      constructor
      · simp only [appliedOf, pendingOf, hpc, mapGet_mapSet_self,
          Option.map_none, Option.getD_none, Option.getD_some,
          List.nil_append] at h1 ⊢
        simp [← h1]
      · intro hrd
        simp [hasRemoteDesc, hpc] at hrd
    | some pc =>
      cases hrd : pc.hasRemoteDescription with
      | true =>
        have hpend : mapGet p s.pendingCandidates = none := by
          apply h2; simp [hasRemoteDesc, hpc, hrd]
        constructor
        · simp only [appliedOf, pendingOf, hpc, hpend, hrd, if_pos,
            mapGet_mapSet_self, Option.map_some, Option.getD_some,
            Option.getD_none, Option.map_none, List.append_nil] at h1 ⊢
          simp [← h1]
        · intro _
          simpa [hrd, hpend] using hpend
      | false =>
        constructor
        · simp only [appliedOf, pendingOf, hpc, hrd, Bool.false_eq_true,
            if_neg, not_false_iff, mapGet_mapSet_self, Option.map_some,
            Option.getD_some] at h1 ⊢
          simp [← h1, List.append_assoc]
        · intro hrd'
          simp [hasRemoteDesc, hrd, hpc] at hrd'
  | applyOffer =>
    simp only [stepPeerEvent, eventCandidates, List.append_nil, handleOffer]
    cases hpc : mapGet p s.peerConnections with
    | some pc =>
      simp only [hpc, Option.isSome_some, if_pos, Option.getD_some]
      constructor
      · simp only [appliedOf, pendingOf, hpc, mapGet_mapSet_self,
          mapGet_mapDelete_self, Option.map_some, Option.getD_some,
          Option.getD_none, Option.map_none, List.append_nil] at h1 ⊢
        exact h1
      · intro _; exact mapGet_mapDelete_self _ _
    | none =>
      have hcreate :
          mapGet p (createPeerConnection p false s).peerConnections
            = some ⟨s.nextInstance, false, []⟩ := by
        simp [createPeerConnection, hpc, mapGet_mapSet_self]
      have hcpend : (createPeerConnection p false s).pendingCandidates
          = s.pendingCandidates := by
        simp [createPeerConnection, hpc]
      simp only [hpc, Option.isSome_none, Bool.false_eq_true, if_neg,
        not_false_iff, hcreate, hcpend]
      constructor
      · simp only [appliedOf, pendingOf, hpc, mapGet_mapSet_self,
          mapGet_mapDelete_self, Option.map_some, Option.getD_some,
          Option.getD_none, Option.map_none, List.append_nil,
          List.nil_append] at h1 ⊢
        exact h1
      · intro _; exact mapGet_mapDelete_self _ _
  | applyAnswer =>
    simp only [stepPeerEvent, eventCandidates, List.append_nil, handleAnswer]
    cases hpc : mapGet p s.peerConnections with
    | none => exact ⟨h1, h2⟩
    | some pc =>
      constructor
      · simp only [appliedOf, pendingOf, hpc, mapGet_mapSet_self,
          mapGet_mapDelete_self, Option.map_some, Option.getD_some,
          Option.getD_none, Option.map_none, List.append_nil] at h1 ⊢
        exact h1
      · intro _; exact mapGet_mapDelete_self _ _
  | create i =>
    simp only [stepPeerEvent, eventCandidates, List.append_nil,
      createPeerConnection]
    cases hpc : mapGet p s.peerConnections with
    | some pc => simp only [hpc, Option.isSome_some, if_pos]; exact ⟨h1, h2⟩
    | none =>
      simp only [hpc, Option.isSome_none, Bool.false_eq_true, if_neg,
        not_false_iff]
      have happ :
          ∀ t : HookState, t.peerConnections =
              mapSet p ⟨s.nextInstance, false, []⟩ s.peerConnections →
            t.pendingCandidates = s.pendingCandidates →
            CandInv p t seen := by
        intro t hpcs hpend
        constructor
        · simp only [appliedOf, pendingOf, hpcs, hpend, mapGet_mapSet_self,
            Option.map_some, Option.getD_some, List.nil_append]
          simp only [appliedOf, pendingOf, hpc, Option.map_none,
            Option.getD_none, List.nil_append] at h1
          exact h1
        · intro hrd
          simp [hasRemoteDesc, hpcs, mapGet_mapSet_self] at hrd
      cases i with
      | true => exact happ _ rfl rfl
      | false => exact happ _ rfl rfl

theorem candInv_run (p : String) (s : HookState) (seen : List Candidate)
    (evts : List PeerEvent) (h : CandInv p s seen) :
    CandInv p (runPeerEvents p s evts) (seen ++ eventCandidates evts) := by
  induction evts generalizing s seen with
  | nil => simpa [runPeerEvents, eventCandidates] using h
  | cons e es ih =>
    have hstep := candInv_step p s seen e h
    have := ih (stepPeerEvent p s e) (seen ++ eventCandidates [e]) hstep
    simp only [runPeerEvents] at this ⊢
    cases e <;> simpa [eventCandidates] using this

end GroupCall

namespace GroupCall

/-- Sanity example: candidates before and after the remote description. -/
example :
    let s := runPeerEvents "p" HookState.init
      [.candidate 1, .candidate 2, .applyOffer, .candidate 3]
    appliedOf s "p" = [1, 2, 3] ∧ pendingOf s "p" = [] := by decide

example :
    let s := runPeerEvents "p" HookState.init
      [.create true, .candidate 7, .applyAnswer, .candidate 8]
    appliedOf s "p" = [7, 8] ∧ pendingOf s "p" = [] := by decide

end GroupCall

/-- C1: for every remote peer `p` and every interleaving of ICE candidates
from `p` with the application of `p`'s remote description (via
`handleOffer` or `handleAnswer`, with `createPeerConnection` calls allowed
anywhere), a candidate arriving while no remote description is set is
appended to the pending queue; once a remote description is in place the
queue has been drained in FIFO order and deleted; overall the applied
candidates followed by the still-pending ones are exactly the candidates
in arrival order — each applied at most once, none dropped, none
reordered. -/
theorem C1_candidate_queue_fifo_no_loss (p : String)
    (evts : List GroupCall.PeerEvent) :
    GroupCall.appliedOf (GroupCall.runPeerEvents p GroupCall.HookState.init evts) p
        ++ GroupCall.pendingOf
            (GroupCall.runPeerEvents p GroupCall.HookState.init evts) p
      = GroupCall.eventCandidates evts
    ∧ (GroupCall.hasRemoteDesc
          (GroupCall.runPeerEvents p GroupCall.HookState.init evts) p = true →
        mapGet p (GroupCall.runPeerEvents p GroupCall.HookState.init evts).pendingCandidates
          = none) := by
  have h0 : GroupCall.CandInv p GroupCall.HookState.init [] := by
    constructor
    · simp [GroupCall.appliedOf, GroupCall.pendingOf, GroupCall.HookState.init, mapGet]
    · intro hrd
      simp [GroupCall.hasRemoteDesc, GroupCall.HookState.init, mapGet] at hrd
  have := GroupCall.candInv_run p GroupCall.HookState.init [] evts h0
  simpa [GroupCall.CandInv] using this

namespace PcEvents

/-- Values of `RTCPeerConnection.connectionState`. -/
inductive ConnState
  | newConn
  | connecting
  | connected
  | disconnected
  | failed
  | closed
  deriving DecidableEq, Repr

/-- Actions an orchestrator can take on its `RTCPeerConnection`:
`console.log`, `pc.restartIce()` and `pc.close()` (the latter appears in
`removePeer`/`closeAllConnections`, never in the state-change handler). -/
inductive PcAction
  | logState (st : ConnState)
  | restartIce
  | closeConnection
  deriving DecidableEq, Repr

/-- The `pc.onconnectionstatechange` handler of the group-video-call
`useWebRTC` hook (identical logic in the expanded-video-call
`Controls.tsx`): log the state and, when it is `failed`, call
`pc.restartIce()`. -/
def onConnectionStateChange (st : ConnState) : List PcAction :=
  [.logState st] ++ (if st = .failed then [.restartIce] else [])

/-- Actions produced over a whole sequence of connection-state reports. -/
def connectionStateTrace : List ConnState → List PcAction
  | [] => []
  | st :: rest => onConnectionStateChange st ++ connectionStateTrace rest

end PcEvents

/-- C4 counterexample: with two consecutive `failed` reports the handler
attempts an ICE restart twice — not exactly once — and never performs a
teardown (`pc.close()`), so no session is surfaced as unreachable. -/
theorem C4_cex_restart_not_once :
    (PcEvents.connectionStateTrace
        [PcEvents.ConnState.failed, PcEvents.ConnState.failed]).count
        PcEvents.PcAction.restartIce = 2
    ∧ PcEvents.PcAction.closeConnection ∉
        PcEvents.connectionStateTrace
          [PcEvents.ConnState.failed, PcEvents.ConnState.failed] := by
  decide

/-- C4 amended: whenever the underlying connection reports the terminal
connectivity state `failed`, the handler attempts an ICE restart in place
(session state is not destroyed); it does so on every `failed` report —
one restart per report, with no retry bound — and it never tears the
session down (`pc.close()` is never called by this handler), so no
peer-unreachable condition is surfaced. -/
theorem C4_restart_every_failure (reports : List PcEvents.ConnState) :
    (PcEvents.connectionStateTrace reports).count PcEvents.PcAction.restartIce
      = reports.count PcEvents.ConnState.failed
    ∧ PcEvents.PcAction.closeConnection ∉ PcEvents.connectionStateTrace reports := by
  induction reports with
  | nil => simp [PcEvents.connectionStateTrace]
  | cons st rest ih =>
    obtain ⟨ih1, ih2⟩ := ih
    constructor
    · cases hst : st <;>
        simp [PcEvents.connectionStateTrace, PcEvents.onConnectionStateChange,
          List.count_cons, ih1, List.count_append]
    · cases hst : st <;>
        simp [PcEvents.connectionStateTrace, PcEvents.onConnectionStateChange,
          ih2]

namespace Broadcaster

/-- A viewer entry in the `viewers` React state array. -/
structure ViewerInfo where
  peerId : String
  username : String
  deriving DecidableEq, Repr

/-- State of the `useBroadcasterWebRTC` hook: `viewers`, `viewerCount`,
`peerConnectionsRef`, `pendingCandidatesRef`, plus an instance counter and
the outbox of signaling sends. -/
structure HookState where
  viewers : List ViewerInfo
  viewerCount : Nat
  peerConnections : List (String × GroupCall.RTCPeerConn)
  pendingCandidates : List (String × List GroupCall.Candidate)
  nextInstance : Nat
  outbox : List GroupCall.SignalOut
  deriving DecidableEq, Repr

def HookState.init : HookState := ⟨[], 0, [], [], 0, []⟩

/-- Source `createConnectionForViewer(viewerPeerId, viewerUsername)`: early
return when a connection already exists; otherwise allocate a fresh
connection, add the viewer to the list (deduplicated), increment the
viewer count, and send an offer. -/
def createConnectionForViewer (viewerPeerId viewerUsername : String)
    (s : HookState) : HookState :=
  if (mapGet viewerPeerId s.peerConnections).isSome then s
  else
    { s with
      peerConnections :=
        mapSet viewerPeerId ⟨s.nextInstance, false, []⟩ s.peerConnections
      nextInstance := s.nextInstance + 1
      viewers :=
        if s.viewers.any (fun v => v.peerId = viewerPeerId) then s.viewers
        else s.viewers ++ [⟨viewerPeerId, viewerUsername⟩]
      viewerCount := s.viewerCount + 1
      outbox := s.outbox ++ [.offerMsg viewerPeerId] }

/-- Source `handleAnswer(viewerPeerId, sdp)`: warn-and-return when no connection
exists; otherwise apply the remote description and drain the queue. -/
def handleAnswer (viewerPeerId : String) (s : HookState) : HookState :=
  match mapGet viewerPeerId s.peerConnections with
  | none => s
  | some pc =>
    let pending := (mapGet viewerPeerId s.pendingCandidates).getD []
    { s with
      peerConnections :=
        mapSet viewerPeerId
          { pc with
            hasRemoteDescription := true
            appliedCandidates := pc.appliedCandidates ++ pending }
          s.peerConnections
      pendingCandidates := mapDelete viewerPeerId s.pendingCandidates }

/-- Source `handleIceCandidate(viewerPeerId, candidate)`: queue when the
connection is missing or has no remote description, else apply. -/
def handleIceCandidate (viewerPeerId : String) (c : GroupCall.Candidate)
    (s : HookState) : HookState :=
  let queueIt : HookState :=
    { s with
      pendingCandidates :=
        mapSet viewerPeerId
          ((mapGet viewerPeerId s.pendingCandidates).getD [] ++ [c])
          s.pendingCandidates }
  match mapGet viewerPeerId s.peerConnections with
  | none => queueIt
  | some pc =>
    if pc.hasRemoteDescription then
      { s with
        peerConnections :=
          mapSet viewerPeerId
            { pc with appliedCandidates := pc.appliedCandidates ++ [c] }
            s.peerConnections }
    else queueIt

/-- Source `removeViewer(viewerPeerId)`: close and drop the connection, drop the
pending queue, filter the viewer out of the list, and decrement the
viewer count clamped at zero (`Math.max(0, prev - 1)`). -/
def removeViewer (viewerPeerId : String) (s : HookState) : HookState :=
  { s with
    peerConnections := mapDelete viewerPeerId s.peerConnections
    pendingCandidates := mapDelete viewerPeerId s.pendingCandidates
    viewers := s.viewers.filter (fun v => !(v.peerId = viewerPeerId))
    viewerCount := s.viewerCount - 1 }

/-- Source `closeAllConnections()`. -/
def closeAllConnections (s : HookState) : HookState :=
  { s with
    peerConnections := []
    pendingCandidates := []
    viewers := []
    viewerCount := 0 }

end Broadcaster

/-- C3: at most one peer-connection instance per ordered (local, remote)
pair. For both the mesh `createPeerConnection` and the star
`createConnectionForViewer`: a call for a remote peer that already has a
connection is a no-op (the first call's instance is observed, the state —
including the instance stored for that peer — is untouched); calling
twice equals calling once; and the number of stored connections for the
peer after a call is one when there was none and unchanged otherwise, so
a second instance is never created. -/
theorem C3_single_connection_per_pair (s : GroupCall.HookState)
    (t : Broadcaster.HookState) (v u : String) (i : Bool) :
    ((mapGet v s.peerConnections).isSome →
        GroupCall.createPeerConnection v i s = s)
    ∧ GroupCall.createPeerConnection v i (GroupCall.createPeerConnection v i s)
        = GroupCall.createPeerConnection v i s
    ∧ countKey v (GroupCall.createPeerConnection v i s).peerConnections
        = (if countKey v s.peerConnections = 0 then 1
           else countKey v s.peerConnections)
    ∧ ((mapGet v t.peerConnections).isSome →
        Broadcaster.createConnectionForViewer v u t = t)
    ∧ Broadcaster.createConnectionForViewer v u
          (Broadcaster.createConnectionForViewer v u t)
        = Broadcaster.createConnectionForViewer v u t
    ∧ countKey v (Broadcaster.createConnectionForViewer v u t).peerConnections
        = (if countKey v t.peerConnections = 0 then 1
           else countKey v t.peerConnections) := by
  have hmesh1 : ∀ s' : GroupCall.HookState, (mapGet v s'.peerConnections).isSome →
      GroupCall.createPeerConnection v i s' = s' := by
    intro s' h
    simp [GroupCall.createPeerConnection, h]
  have hstar1 : ∀ t' : Broadcaster.HookState, (mapGet v t'.peerConnections).isSome →
      Broadcaster.createConnectionForViewer v u t' = t' := by
    intro t' h
    simp [Broadcaster.createConnectionForViewer, h]
  have hmeshGet : (mapGet v (GroupCall.createPeerConnection v i s).peerConnections).isSome := by
    by_cases h : (mapGet v s.peerConnections).isSome
    · rw [hmesh1 s h]; exact h
    · cases i <;>
        simp [GroupCall.createPeerConnection, h, mapGet_mapSet_self]
  have hstarGet :
      (mapGet v (Broadcaster.createConnectionForViewer v u t).peerConnections).isSome := by
    by_cases h : (mapGet v t.peerConnections).isSome
    · rw [hstar1 t h]; exact h
    · simp [Broadcaster.createConnectionForViewer, h, mapGet_mapSet_self]
  refine ⟨hmesh1 s, ?_, ?_, hstar1 t, ?_, ?_⟩
  · exact hmesh1 _ hmeshGet
  · by_cases h : (mapGet v s.peerConnections).isSome
    · rw [hmesh1 s h]
      have : countKey v s.peerConnections ≠ 0 := by
        intro hz
        rcases Option.isSome_iff_exists.mp h with ⟨pc, hpc⟩
        have : mapGet v s.peerConnections = none := by
          revert hz
          generalize s.peerConnections = l
          intro hz
          induction l with
          | nil => simp [mapGet]
          | cons e rest ih =>
            by_cases he : e.1 = v
            · simp [countKey, List.filter, he] at hz
            · simp only [countKey, List.filter, he] at hz ih
              simpa [mapGet, he] using ih hz
        simp [this] at hpc
      simp [this]
    · have hz : countKey v s.peerConnections = 0 := by
        revert h
        generalize s.peerConnections = l
        intro h
        induction l with
        | nil => simp [countKey]
        | cons e rest ih =>
          by_cases he : e.1 = v
          · simp [mapGet, he] at h
          · simp only [mapGet, he, if_neg, countKey, List.filter] at h ih ⊢
            simpa [he] using ih h
      cases i <;>
        simp [GroupCall.createPeerConnection, h, hz, countKey_mapSet]
  · exact hstar1 _ hstarGet
  · by_cases h : (mapGet v t.peerConnections).isSome
    · rw [hstar1 t h]
      have hnz : countKey v t.peerConnections ≠ 0 := by
        intro hz
        rcases Option.isSome_iff_exists.mp h with ⟨pc, hpc⟩
        have : mapGet v t.peerConnections = none := by
          revert hz
          generalize t.peerConnections = l
          intro hz
          induction l with
          | nil => simp [mapGet]
          | cons e rest ih =>
            by_cases he : e.1 = v
            · simp [countKey, List.filter, he] at hz
            · simp only [countKey, List.filter, he] at hz ih
              simpa [mapGet, he] using ih hz
        simp [this] at hpc
      simp [hnz]
    · have hz : countKey v t.peerConnections = 0 := by
        revert h
        generalize t.peerConnections = l
        intro h
        induction l with
        | nil => simp [countKey]
        | cons e rest ih =>
          by_cases he : e.1 = v
          · simp [mapGet, he] at h
          · simp only [mapGet, he, if_neg, countKey, List.filter] at h ih ⊢
            simpa [he] using ih h
      simp [Broadcaster.createConnectionForViewer, h, hz, countKey_mapSet]

/-- C3 witness: concrete states exercising both the fresh-creation and the
duplicate-call branch of the single-connection theorem. -/
theorem C3_single_connection_per_pair_witness :
    GroupCall.createPeerConnection "v" true
        (GroupCall.createPeerConnection "v" true GroupCall.HookState.init)
      = GroupCall.createPeerConnection "v" true GroupCall.HookState.init
    ∧ countKey "v"
        (GroupCall.createPeerConnection "v" true GroupCall.HookState.init).peerConnections
      = 1
    ∧ Broadcaster.createConnectionForViewer "v" "u"
        (Broadcaster.createConnectionForViewer "v" "u" Broadcaster.HookState.init)
      = Broadcaster.createConnectionForViewer "v" "u" Broadcaster.HookState.init
    ∧ GroupCall.createPeerConnection "v" true
        (GroupCall.createPeerConnection "v" true GroupCall.HookState.init)
      = GroupCall.createPeerConnection "v" true GroupCall.HookState.init := by
  have h := C3_single_connection_per_pair
    (GroupCall.createPeerConnection "v" true GroupCall.HookState.init)
    Broadcaster.HookState.init "v" "u" true
  have h0 := C3_single_connection_per_pair GroupCall.HookState.init
    Broadcaster.HookState.init "v" "u" true
  refine ⟨h.1 (by decide), ?_, h0.2.2.2.2.1, h.1 (by decide)⟩
  have := h0.2.2.1
  simpa [GroupCall.HookState.init] using this

namespace MeshServer

/-- A room entry: peerId together with whether the stored WebSocket is in
the OPEN ready state (the server stores the peerId both as map key and in
the record, so one field suffices). -/
abbrev Room := List (String × Bool)

/-- Server state: `rooms`, a map from roomId to the room member map. -/
structure ServerState where
  rooms : List (String × Room)
  deriving DecidableEq, Repr

/-- Connection-closure state of the handler (`currentRoomId`,
`currentPeerId`). -/
structure ConnCtx where
  currentRoomId : Option String
  currentPeerId : Option String
  deriving DecidableEq, Repr

/-- Messages the mesh server writes to sockets, tagged with the recipient
peer. -/
inductive MeshOut
  | roomPeers (target : String) (peers : List String)
  | peerJoined (target : String) (joiner : String)
  | peerLeft (target : String) (who : String)
  | forwarded (target : String) (payload : Nat)
  deriving DecidableEq, Repr

/-- Source `broadcast(roomId, message, excludePeerId)`: deliver to every member
of the room except the excluded peer whose socket is OPEN. -/
def broadcastRecipients (room : Room) (excludePeerId : String) : List String :=
  (room.filter (fun q => !(q.1 = excludePeerId) && q.2)).map (fun q => q.1)

/-- The `join` case: record the connection context, snapshot the existing
member keys, insert the joiner, reply `room-peers` to the joiner, and
broadcast `peer-joined` to the others. -/
def handleJoin (roomId peerId : String) (s : ServerState) :
    ConnCtx × ServerState × List MeshOut :=
  let room := (mapGet roomId s.rooms).getD []
  let existingPeers := room.map (fun q => q.1)
  let room' := mapSet peerId true room
  (⟨some roomId, some peerId⟩,
   ⟨mapSet roomId room' s.rooms⟩,
   .roomPeers peerId existingPeers ::
     (broadcastRecipients room' peerId).map (fun q => .peerJoined q peerId))

/-- Source `forwardToPeer(roomId, toPeerId, message)`: silently drop on unknown
room, unknown peer, or closed target socket. -/
def forwardToPeer (roomId? : Option String) (toPeerId : String) (payload : Nat)
    (s : ServerState) : List MeshOut :=
  match roomId? with
  | none => []
  | some roomId =>
    match mapGet roomId s.rooms with
    | none => []
    | some room =>
      match mapGet toPeerId room with
      | none => []
      | some isOpen => if isOpen then [.forwarded toPeerId payload] else []

/-- The `close` handler: remove the peer, broadcast `peer-left`, and
delete the room immediately when it became empty. -/
def handleClose (ctx : ConnCtx) (s : ServerState) : ServerState × List MeshOut :=
  match ctx.currentRoomId, ctx.currentPeerId with
  | some roomId, some peerId =>
    match mapGet roomId s.rooms with
    | none => (s, [])
    | some room =>
      let room' := mapDelete peerId room
      let sends := (broadcastRecipients room' peerId).map
        (fun q => MeshOut.peerLeft q peerId)
      if room'.length = 0 then (⟨mapDelete roomId s.rooms⟩, sends)
      else (⟨mapSet roomId room' s.rooms⟩, sends)
  | _, _ => (s, [])

end MeshServer

/-- C2 counterexample: a pre-existing member whose socket is no longer
OPEN (its close event has not been processed yet) appears in the joiner's
`room-peers` snapshot but receives no `peer-joined` notice, so the
claimed equivalence between the two fails. -/
theorem C2_cex_closed_member_misses_notice :
    let s : MeshServer.ServerState := ⟨[("r", [("a", false)])]⟩
    let out := (MeshServer.handleJoin "r" "b" s).2.2
    MeshServer.MeshOut.roomPeers "b" ["a"] ∈ out
    ∧ MeshServer.MeshOut.peerJoined "a" "b" ∉ out := by
  decide

/-- C2 amended: on a join of a fresh peer, the relay registers the peer
and replies to the joiner with the member snapshot taken at that same
registry mutation — exactly the pre-existing member ids, not including
the joiner — and sends `peer-joined` notices for the joiner to exactly
the pre-existing members whose sockets are OPEN at send time. Hence for
every pre-existing member with an OPEN socket, presence in the snapshot
and receipt of a `peer-joined` notice coincide; a member whose socket is
no longer OPEN is in the snapshot but gets no notice. -/
theorem C2_join_snapshot_vs_notices (s : MeshServer.ServerState)
    (room : MeshServer.Room) (roomId j : String)
    (hroom : mapGet roomId s.rooms = some room)
    (hfresh : mapGet j room = none) :
    (MeshServer.handleJoin roomId j s).2.2
      = MeshServer.MeshOut.roomPeers j (room.map (fun q => q.1)) ::
          (room.filter (fun q => q.2)).map
            (fun q => MeshServer.MeshOut.peerJoined q.1 j)
    ∧ (∀ q : String × Bool, q ∈ room → q.2 = true →
        (q.1 ∈ room.map (fun e => e.1)
          ∧ MeshServer.MeshOut.peerJoined q.1 j ∈ (MeshServer.handleJoin roomId j s).2.2))
    ∧ j ∉ room.map (fun e => e.1) := by
  have hkey := mapGet_none_keys j room hfresh
  have hset : mapSet j true room = room ++ [(j, true)] :=
    mapSet_append_fresh j true room hkey
  have hrecips : MeshServer.broadcastRecipients (mapSet j true room) j
      = (room.filter (fun q => q.2)).map (fun q => q.1) := by
    rw [hset]
    simp only [MeshServer.broadcastRecipients, List.filter_append]
    have h1 : List.filter (fun q => !(q.1 = j) && q.2) [(j, true)]
        = ([] : MeshServer.Room) := by simp [List.filter]
    have h2 : room.filter (fun q => !(q.1 = j) && q.2)
        = room.filter (fun q => q.2) := by
      apply List.filter_congr
      intro e he
      have := hkey e he
      simp [this]
    rw [h1, h2, List.append_nil]
  refine ⟨?_, ?_, ?_⟩
  · simp only [MeshServer.handleJoin, hroom, Option.getD_some, hrecips,
      List.map_map]
    rfl
  · intro q hq hopen
    constructor
    · exact List.mem_map.mpr ⟨q, hq, rfl⟩
    · simp only [MeshServer.handleJoin, hroom, Option.getD_some, hrecips]
      apply List.mem_cons_of_mem
      rw [List.map_map]
      exact List.mem_map.mpr ⟨q, List.mem_filter.mpr ⟨hq, by simp [hopen]⟩, rfl⟩
  · intro hmem
    rcases List.mem_map.mp hmem with ⟨e, he, hej⟩
    exact hkey e he hej

/-- C2 witness: a concrete room with one open and one closed member. -/
theorem C2_join_snapshot_vs_notices_witness :
    (MeshServer.handleJoin "r" "c" ⟨[("r", [("a", true), ("b", false)])]⟩).2.2
      = [MeshServer.MeshOut.roomPeers "c" ["a", "b"],
         MeshServer.MeshOut.peerJoined "a" "c"]
    ∧ MeshServer.MeshOut.peerJoined "a" "c"
        ∈ (MeshServer.handleJoin "r" "c" ⟨[("r", [("a", true), ("b", false)])]⟩).2.2 := by
  have h := C2_join_snapshot_vs_notices ⟨[("r", [("a", true), ("b", false)])]⟩
    [("a", true), ("b", false)] "r" "c" (by decide) (by decide)
  refine ⟨?_, ((h.2.1 ("a", true) (by decide) (by decide)).2)⟩
  rw [h.1]
  rfl

namespace BServer

/-- Source `BroadcasterInfo`: peerId, username, plus the readiness of the stored
socket (`ws.readyState === WebSocket.OPEN`). -/
structure BroadcasterInfo where
  peerId : String
  username : String
  wsOpen : Bool
  deriving DecidableEq, Repr

/-- Value stored in the `viewers` map (keyed by peerId): username and
socket readiness. -/
structure ViewerEntry where
  username : String
  wsOpen : Bool
  deriving DecidableEq, Repr

/-- Source `BroadcastRoom`. -/
structure BroadcastRoom where
  broadcastId : String
  broadcaster : Option BroadcasterInfo
  viewers : List (String × ViewerEntry)
  isLive : Bool
  deriving DecidableEq, Repr

/-- The per-connection closure variables of the `wss.on('connection')`
handler. -/
inductive Role
  | broadcaster
  | viewer
  deriving DecidableEq, Repr

structure ConnCtx where
  currentBroadcastId : Option String
  currentPeerId : Option String
  currentUsername : String
  currentRole : Option Role
  deriving DecidableEq, Repr

def ConnCtx.init : ConnCtx := ⟨none, none, "Anonymous", none⟩

/-- Payloads the broadcast server writes to sockets. -/
inductive SMsg
  | broadcastCreated (broadcastId : String)
  | broadcastStarted (broadcastId : String)
  | broadcastEnded (broadcastId : String)
  | broadcastInfo (broadcastId : String) (isLive : Bool) (broadcasterUsername : String)
  | viewerJoined (peerId username : String)
  | viewerLeft (peerId : String)
  | viewerCount (count : Nat)
  | errorMsg (text : String)
  | offerOut (sender : Option String) (sdp : Nat)
  | answerOut (sender : Option String) (sdp : Nat)
  | iceOut (sender : Option String) (candidate : Nat)
  | chat (timeMark : Nat) (sender : Option String) (username text : String)
      (timestamp : Nat)
  deriving DecidableEq, Repr

/-- An outgoing write, to the handling connection itself (`ws.send`) or to
a registered peer's stored socket. -/
inductive SOut
  | toSender (m : SMsg)
  | toPeer (peerId : String) (m : SMsg)
  deriving DecidableEq, Repr

/-- Inbound client messages. -/
inductive CMsg
  | createBroadcast (peerId username : String)
  | startBroadcast (broadcastId : String)
  | endBroadcast (broadcastId : String)
  | joinBroadcast (broadcastId peerId username : String)
  | leaveBroadcast (broadcastId peerId : String)
  | offerIn (target : String) (sdp : Nat)
  | answerIn (target : String) (sdp : Nat)
  | iceIn (target : String) (candidate : Nat)
  | chatMessage (broadcastId text : String)
  deriving DecidableEq, Repr

/-- Ambient inputs the server reads: `generateBroadcastId()` for
`create-broadcast` and `Date.now()` for chat messages. -/
structure Env where
  freshId : String
  now : Nat
  deriving DecidableEq, Repr

abbrev Broadcasts := List (String × BroadcastRoom)

/-- Result of handling one inbound message. -/
structure Step where
  ctx : ConnCtx
  broadcasts : Broadcasts
  sends : List SOut
  deriving DecidableEq, Repr

/-- The guard `room.broadcaster?.peerId === currentPeerId` (strict JS equality:
false whenever either side is null/undefined). -/
def fromBroadcaster (room : BroadcastRoom) (ctx : ConnCtx) : Bool :=
  match room.broadcaster, ctx.currentPeerId with
  | some br, some p => br.peerId = p
  | _, _ => false

/-- The expression `room.broadcaster?.username || 'Unknown'` (an empty string is falsy). -/
def broadcasterUsernameOf (room : BroadcastRoom) : String :=
  match room.broadcaster with
  | some br => if br.username = "" then "Unknown" else br.username
  | none => "Unknown"

/-- Open viewers of a room, in insertion order. -/
def openViewers (room : BroadcastRoom) : List (String × ViewerEntry) :=
  room.viewers.filter (fun v => v.2.wsOpen)

/-- The `ws.on('message')` dispatch of the broadcast signaling server. -/
def handleMsg (env : Env) (ctx : ConnCtx) (bs : Broadcasts) : CMsg → Step
  | .createBroadcast peerId username =>
    let uname := if username = "" then "Broadcaster" else username
    let broadcastId := env.freshId
    let room : BroadcastRoom :=
      ⟨broadcastId, some ⟨peerId, uname, true⟩, [], false⟩
    ⟨⟨some broadcastId, some peerId, uname, some .broadcaster⟩,
     mapSet broadcastId room bs,
     [.toSender (.broadcastCreated broadcastId)]⟩
  | .startBroadcast broadcastId =>
    match mapGet broadcastId bs with
    | some room =>
      if fromBroadcaster room ctx then
        ⟨ctx, mapSet broadcastId { room with isLive := true } bs,
         (openViewers room).map (fun v => .toPeer v.1 (.broadcastStarted broadcastId))⟩
      else ⟨ctx, bs, []⟩
    | none => ⟨ctx, bs, []⟩
  | .endBroadcast broadcastId =>
    match mapGet broadcastId bs with
    | some room =>
      if fromBroadcaster room ctx then
        ⟨ctx, mapSet broadcastId { room with isLive := false } bs,
         (openViewers room).map (fun v => .toPeer v.1 (.broadcastEnded broadcastId))⟩
      else ⟨ctx, bs, []⟩
    | none => ⟨ctx, bs, []⟩
  | .joinBroadcast broadcastId peerId username =>
    match mapGet broadcastId bs with
    | none => ⟨ctx, bs, [.toSender (.errorMsg "Broadcast not found")]⟩
    | some room =>
      let uname := if username = "" then "Viewer" else username
      let room' : BroadcastRoom :=
        { room with viewers := mapSet peerId ⟨uname, true⟩ room.viewers }
      let toBroadcaster :=
        match room.broadcaster with
        | some br =>
          if br.wsOpen then
            [SOut.toPeer br.peerId (.viewerJoined peerId uname),
             SOut.toPeer br.peerId (.viewerCount room'.viewers.length)]
          else []
        | none => []
      ⟨⟨some broadcastId, some peerId, uname, some .viewer⟩,
       mapSet broadcastId room' bs,
       .toSender (.broadcastInfo broadcastId room.isLive (broadcasterUsernameOf room))
         :: toBroadcaster⟩
  | .leaveBroadcast broadcastId peerId =>
    match mapGet broadcastId bs with
    | none => ⟨ctx, bs, []⟩
    | some room =>
      let room' : BroadcastRoom :=
        { room with viewers := mapDelete peerId room.viewers }
      let toBroadcaster :=
        match room.broadcaster with
        | some br =>
          if br.wsOpen then
            [SOut.toPeer br.peerId (.viewerLeft peerId),
             SOut.toPeer br.peerId (.viewerCount room'.viewers.length)]
          else []
        | none => []
      ⟨ctx, mapSet broadcastId room' bs, toBroadcaster⟩
  | .offerIn target sdp =>
    match ctx.currentBroadcastId with
    | none => ⟨ctx, bs, []⟩
    | some bId =>
      match mapGet bId bs with
      | none => ⟨ctx, bs, []⟩
      | some room =>
        match mapGet target room.viewers with
        | some v =>
          if v.wsOpen then
            ⟨ctx, bs, [.toPeer target (.offerOut ctx.currentPeerId sdp)]⟩
          else ⟨ctx, bs, []⟩
        | none => ⟨ctx, bs, []⟩
  | .answerIn _ sdp =>
    match ctx.currentBroadcastId with
    | none => ⟨ctx, bs, []⟩
    | some bId =>
      match mapGet bId bs with
      | none => ⟨ctx, bs, []⟩
      | some room =>
        match room.broadcaster with
        | some br =>
          if br.wsOpen then
            ⟨ctx, bs, [.toPeer br.peerId (.answerOut ctx.currentPeerId sdp)]⟩
          else ⟨ctx, bs, []⟩
        | none => ⟨ctx, bs, []⟩
  | .iceIn target candidate =>
    match ctx.currentBroadcastId with
    | none => ⟨ctx, bs, []⟩
    | some bId =>
      match mapGet bId bs with
      | none => ⟨ctx, bs, []⟩
      | some room =>
        if ctx.currentRole = some .broadcaster then
          match mapGet target room.viewers with
          | some v =>
            if v.wsOpen then
              ⟨ctx, bs, [.toPeer target (.iceOut ctx.currentPeerId candidate)]⟩
            else ⟨ctx, bs, []⟩
          | none => ⟨ctx, bs, []⟩
        else
          match room.broadcaster with
          | some br =>
            if br.wsOpen then
              ⟨ctx, bs, [.toPeer br.peerId (.iceOut ctx.currentPeerId candidate)]⟩
            else ⟨ctx, bs, []⟩
          | none => ⟨ctx, bs, []⟩
  | .chatMessage broadcastId text =>
    match mapGet broadcastId bs with
    | none => ⟨ctx, bs, []⟩
    | some room =>
      let msg : SMsg :=
        .chat env.now ctx.currentPeerId ctx.currentUsername text env.now
      let toBroadcaster :=
        match room.broadcaster with
        | some br => if br.wsOpen then [SOut.toPeer br.peerId msg] else []
        | none => []
      ⟨ctx, bs,
       toBroadcaster ++ (openViewers room).map (fun v => .toPeer v.1 msg)⟩

/-- A timer scheduled by `setTimeout`: delay in milliseconds and the
captured broadcast id. -/
structure Timer where
  delayMs : Nat
  broadcastId : String
  deriving DecidableEq, Repr

/-- Result of the `ws.on('close')` handler. -/
structure CloseStep where
  broadcasts : Broadcasts
  sends : List SOut
  timers : List Timer
  deriving DecidableEq, Repr

/-- The `ws.on('close')` handler: a broadcaster disconnect marks the room
not live, notifies open viewers, and schedules a 30-second cleanup timer;
a viewer disconnect removes the viewer and notifies the broadcaster. -/
def handleClose (ctx : ConnCtx) (bs : Broadcasts) : CloseStep :=
  match ctx.currentBroadcastId, ctx.currentPeerId with
  | some broadcastId, some peerId =>
    match mapGet broadcastId bs with
    | none => ⟨bs, [], []⟩
    | some room =>
      if ctx.currentRole = some .broadcaster then
        ⟨mapSet broadcastId { room with isLive := false } bs,
         (openViewers room).map (fun v => .toPeer v.1 (.broadcastEnded broadcastId)),
         [⟨30000, broadcastId⟩]⟩
      else
        let room' : BroadcastRoom :=
          { room with viewers := mapDelete peerId room.viewers }
        let toBroadcaster :=
          match room.broadcaster with
          | some br =>
            if br.wsOpen then
              [SOut.toPeer br.peerId (.viewerLeft peerId),
               SOut.toPeer br.peerId (.viewerCount room'.viewers.length)]
            else []
          | none => []
        ⟨mapSet broadcastId room' bs, toBroadcaster, []⟩
  | _, _ => ⟨bs, [], []⟩

/-- The `setTimeout` callback: delete the room only when it still exists,
is not live, and has no viewers. -/
def timerFire (broadcastId : String) (bs : Broadcasts) : Broadcasts :=
  match mapGet broadcastId bs with
  | some room =>
    if !room.isLive && room.viewers.length = 0 then mapDelete broadcastId bs
    else bs
  | none => bs

end BServer

/-- Lemma: `mapSet` never removes a key. -/
theorem mapGet_isSome_mapSet {α : Type} (b k : String) (v : α)
    (l : List (String × α)) (h : (mapGet b l).isSome) :
    (mapGet b (mapSet k v l)).isSome := by
  by_cases hb : b = k
  · subst hb; simp [mapGet_mapSet_self]
  · rw [mapGet_mapSet_ne k b v l hb]; exact h

/-- Deleting a key twice equals deleting it once. -/
theorem mapDelete_idem {α : Type} (k : String) (l : List (String × α)) :
    mapDelete k (mapDelete k l) = mapDelete k l := by
  simp [mapDelete, List.filter_filter]

/-- C10: a `start-broadcast` or `end-broadcast` for a registered room is
honored exactly when the sending connection's peerId equals the room's
broadcaster peerId: then the `isLive` flag is set (true for start, false
for end) and every open viewer is notified; from any other connection the
handler leaves the registry and the connection context unchanged and
sends nothing. -/
theorem C10_live_gating_broadcaster_only (env : BServer.Env)
    (ctx : BServer.ConnCtx) (bs : BServer.Broadcasts)
    (b : String) (room : BServer.BroadcastRoom)
    (h : mapGet b bs = some room) :
    (BServer.fromBroadcaster room ctx = true →
        BServer.handleMsg env ctx bs (.startBroadcast b)
          = ⟨ctx, mapSet b { room with isLive := true } bs,
             (BServer.openViewers room).map
               (fun v => .toPeer v.1 (.broadcastStarted b))⟩
      ∧ BServer.handleMsg env ctx bs (.endBroadcast b)
          = ⟨ctx, mapSet b { room with isLive := false } bs,
             (BServer.openViewers room).map
               (fun v => .toPeer v.1 (.broadcastEnded b))⟩)
    ∧ (BServer.fromBroadcaster room ctx = false →
        BServer.handleMsg env ctx bs (.startBroadcast b) = ⟨ctx, bs, []⟩
      ∧ BServer.handleMsg env ctx bs (.endBroadcast b) = ⟨ctx, bs, []⟩) := by
  constructor
  · intro hg
    constructor <;> simp [BServer.handleMsg, h, hg]
  · intro hg
    constructor <;> simp [BServer.handleMsg, h, hg]

/-- C10 witness: a room with broadcaster `bp` and one open viewer; the
broadcaster's own connection flips the flag, a viewer's connection is
ignored. -/
theorem C10_live_gating_broadcaster_only_witness :
    (BServer.handleMsg ⟨"F", 0⟩
        ⟨some "B1", some "bp", "B", some BServer.Role.broadcaster⟩
        [("B1", ⟨"B1", some ⟨"bp", "B", true⟩, [("v1", ⟨"V", true⟩)], false⟩)]
        (.startBroadcast "B1")
      = ⟨⟨some "B1", some "bp", "B", some BServer.Role.broadcaster⟩,
         [("B1", ⟨"B1", some ⟨"bp", "B", true⟩, [("v1", ⟨"V", true⟩)], true⟩)],
         [.toPeer "v1" (.broadcastStarted "B1")]⟩)
    ∧ (BServer.handleMsg ⟨"F", 0⟩
        ⟨some "B1", some "v1", "V", some BServer.Role.viewer⟩
        [("B1", ⟨"B1", some ⟨"bp", "B", true⟩, [("v1", ⟨"V", true⟩)], false⟩)]
        (.startBroadcast "B1")
      = ⟨⟨some "B1", some "v1", "V", some BServer.Role.viewer⟩,
         [("B1", ⟨"B1", some ⟨"bp", "B", true⟩, [("v1", ⟨"V", true⟩)], false⟩)],
         []⟩) := by
  have h1 := C10_live_gating_broadcaster_only ⟨"F", 0⟩
    ⟨some "B1", some "bp", "B", some BServer.Role.broadcaster⟩
    [("B1", ⟨"B1", some ⟨"bp", "B", true⟩, [("v1", ⟨"V", true⟩)], false⟩)]
    "B1" ⟨"B1", some ⟨"bp", "B", true⟩, [("v1", ⟨"V", true⟩)], false⟩ (by decide)
  have h2 := C10_live_gating_broadcaster_only ⟨"F", 0⟩
    ⟨some "B1", some "v1", "V", some BServer.Role.viewer⟩
    [("B1", ⟨"B1", some ⟨"bp", "B", true⟩, [("v1", ⟨"V", true⟩)], false⟩)]
    "B1" ⟨"B1", some ⟨"bp", "B", true⟩, [("v1", ⟨"V", true⟩)], false⟩ (by decide)
  exact ⟨(h1.1 (by decide)).1, (h2.2 (by decide)).1⟩

/-- C5 counterexample: a `join-broadcast` that references an unknown
broadcast id does NOT fall silent — the relay replies to the sender with
an error message, contradicting the claim that no error reply is ever
sent for unknown references. -/
theorem C5_cex_join_unknown_sends_error :
    BServer.handleMsg ⟨"F", 0⟩ BServer.ConnCtx.init [] (.joinBroadcast "NOPE" "p1" "U")
      = ⟨BServer.ConnCtx.init, [],
         [.toSender (.errorMsg "Broadcast not found")]⟩ := by
  decide

/-- C5 amended: an inbound message referencing an unknown room, unknown
broadcast or unknown peer is dropped without reply and without any state
change — the sender's connection is left open (no handler ever emits a
socket close) — with one exception: `join-broadcast` for an unknown
broadcast id replies to the sender with the error message
`Broadcast not found` (still without closing the connection or touching
any state). -/
theorem C5_unknown_reference_handling (env : BServer.Env)
    (ctx : BServer.ConnCtx) (bs : BServer.Broadcasts)
    (s : MeshServer.ServerState) (b toP : String)
    (payload sdp cand : Nat) (p u text : String)
    (room : MeshServer.Room) :
    (mapGet b s.rooms = none →
        MeshServer.forwardToPeer (some b) toP payload s = [])
    ∧ (mapGet b s.rooms = some room → mapGet toP room = none →
        MeshServer.forwardToPeer (some b) toP payload s = [])
    ∧ MeshServer.forwardToPeer none toP payload s = []
    ∧ (mapGet b bs = none →
        BServer.handleMsg env ctx bs (.startBroadcast b) = ⟨ctx, bs, []⟩
      ∧ BServer.handleMsg env ctx bs (.endBroadcast b) = ⟨ctx, bs, []⟩
      ∧ BServer.handleMsg env ctx bs (.leaveBroadcast b p) = ⟨ctx, bs, []⟩
      ∧ BServer.handleMsg env ctx bs (.chatMessage b text) = ⟨ctx, bs, []⟩
      ∧ BServer.handleMsg env ctx bs (.joinBroadcast b p u)
          = ⟨ctx, bs, [.toSender (.errorMsg "Broadcast not found")]⟩)
    ∧ (ctx.currentBroadcastId = none →
        BServer.handleMsg env ctx bs (.offerIn toP sdp) = ⟨ctx, bs, []⟩
      ∧ BServer.handleMsg env ctx bs (.answerIn toP sdp) = ⟨ctx, bs, []⟩
      ∧ BServer.handleMsg env ctx bs (.iceIn toP cand) = ⟨ctx, bs, []⟩)
    ∧ (ctx.currentBroadcastId = some b → mapGet b bs = none →
        BServer.handleMsg env ctx bs (.offerIn toP sdp) = ⟨ctx, bs, []⟩
      ∧ BServer.handleMsg env ctx bs (.answerIn toP sdp) = ⟨ctx, bs, []⟩
      ∧ BServer.handleMsg env ctx bs (.iceIn toP cand) = ⟨ctx, bs, []⟩)
    ∧ (∀ broom : BServer.BroadcastRoom, ctx.currentBroadcastId = some b →
        mapGet b bs = some broom → mapGet toP broom.viewers = none →
        BServer.handleMsg env ctx bs (.offerIn toP sdp) = ⟨ctx, bs, []⟩) := by
  refine ⟨?_, ?_, ?_, ?_, ?_, ?_, ?_⟩
  · intro h; simp [MeshServer.forwardToPeer, h]
  · intro h1 h2; simp [MeshServer.forwardToPeer, h1, h2]
  · simp [MeshServer.forwardToPeer]
  · intro h
    refine ⟨?_, ?_, ?_, ?_, ?_⟩ <;> simp [BServer.handleMsg, h]
  · intro h
    refine ⟨?_, ?_, ?_⟩ <;> simp [BServer.handleMsg, h]
  · intro h1 h2
    refine ⟨?_, ?_, ?_⟩ <;> simp [BServer.handleMsg, h1, h2]
  · intro broom h1 h2 h3
    simp [BServer.handleMsg, h1, h2, h3]

/-- C5 witness: concrete unknown-reference inputs for the mesh forward
and the broadcast handlers. -/
theorem C5_unknown_reference_handling_witness :
    MeshServer.forwardToPeer (some "nope") "x" 7 ⟨[]⟩ = []
    ∧ BServer.handleMsg ⟨"F", 3⟩ BServer.ConnCtx.init [] (.startBroadcast "nope")
        = ⟨BServer.ConnCtx.init, [], []⟩
    ∧ BServer.handleMsg ⟨"F", 3⟩ BServer.ConnCtx.init [] (.joinBroadcast "nope" "p" "u")
        = ⟨BServer.ConnCtx.init, [],
           [.toSender (.errorMsg "Broadcast not found")]⟩
    ∧ BServer.handleMsg ⟨"F", 3⟩ BServer.ConnCtx.init [] (.offerIn "x" 9)
        = ⟨BServer.ConnCtx.init, [], []⟩ := by
  have h := C5_unknown_reference_handling ⟨"F", 3⟩ BServer.ConnCtx.init []
    ⟨[]⟩ "nope" "x" 7 9 9 "p" "u" "t" []
  exact ⟨h.1 (by decide), ((h.2.2.2.1 (by decide)).1),
    ((h.2.2.2.1 (by decide)).2.2.2.2), ((h.2.2.2.2.1 (by decide)).1)⟩

/-- C6: (mesh) a close that empties a room deletes the room from the
registry immediately, and a close that leaves members keeps the room with
the peer removed; (star) a broadcaster disconnect never deletes the
broadcast — the room stays registered (marked not live) and the only
scheduled cleanup is a timer with a 30000 ms delay; no inbound message
and no close ever removes a broadcast from the registry; the timer
callback is the only deletion point, and it deletes the room only when,
at fire time, the room is not live and has no viewers. -/
theorem C6_room_lifecycle_grace_timer
    (s : MeshServer.ServerState) (roomId peerId : String)
    (room : MeshServer.Room)
    (env : BServer.Env) (ctx bctx : BServer.ConnCtx)
    (bs : BServer.Broadcasts) (b p : String)
    (broom : BServer.BroadcastRoom) (m : BServer.CMsg) :
    (mapGet roomId s.rooms = some room →
        (mapDelete peerId room = [] →
          mapGet roomId
            (MeshServer.handleClose ⟨some roomId, some peerId⟩ s).1.rooms = none)
      ∧ (mapDelete peerId room ≠ [] →
          mapGet roomId
            (MeshServer.handleClose ⟨some roomId, some peerId⟩ s).1.rooms
            = some (mapDelete peerId room)))
    ∧ (bctx.currentBroadcastId = some b → bctx.currentPeerId = some p →
        bctx.currentRole = some BServer.Role.broadcaster →
        mapGet b bs = some broom →
        mapGet b (BServer.handleClose bctx bs).broadcasts
            = some { broom with isLive := false }
      ∧ (BServer.handleClose bctx bs).timers = [⟨30000, b⟩])
    ∧ ((mapGet b bs).isSome →
        (mapGet b (BServer.handleMsg env ctx bs m).broadcasts).isSome)
    ∧ ((mapGet b bs).isSome →
        (mapGet b (BServer.handleClose bctx bs).broadcasts).isSome)
    ∧ (mapGet b bs = some broom →
        (broom.isLive = false → broom.viewers = [] →
          mapGet b (BServer.timerFire b bs) = none)
      ∧ (broom.isLive = true → BServer.timerFire b bs = bs)
      ∧ (broom.viewers ≠ [] → BServer.timerFire b bs = bs)) := by
  refine ⟨?_, ?_, ?_, ?_, ?_⟩
  · intro hroom
    constructor
    · intro hempty
      simp [MeshServer.handleClose, hroom, hempty, mapGet_mapDelete_self]
    · intro hne
      have hlen : ¬ (mapDelete peerId room).length = 0 := by
        simpa [List.length_eq_zero] using hne
      simp [MeshServer.handleClose, hroom, hlen, mapGet_mapSet_self]
  · intro h1 h2 h3 h4
    constructor
    · simp [BServer.handleClose, h1, h2, h3, h4, mapGet_mapSet_self]
    · simp [BServer.handleClose, h1, h2, h3, h4]
  · intro h
    cases m with
    | createBroadcast pId un =>
      exact mapGet_isSome_mapSet _ _ _ _ h
    | startBroadcast bId =>
      cases hr : mapGet bId bs with
      | none => simpa [BServer.handleMsg, hr] using h
      | some r =>
        by_cases hg : BServer.fromBroadcaster r ctx
        · simp only [BServer.handleMsg, hr, hg, if_pos]
          exact mapGet_isSome_mapSet _ _ _ _ h
        · simpa [BServer.handleMsg, hr, hg] using h
    | endBroadcast bId =>
      cases hr : mapGet bId bs with
      | none => simpa [BServer.handleMsg, hr] using h
      | some r =>
        by_cases hg : BServer.fromBroadcaster r ctx
        · simp only [BServer.handleMsg, hr, hg, if_pos]
          exact mapGet_isSome_mapSet _ _ _ _ h
        · simpa [BServer.handleMsg, hr, hg] using h
    | joinBroadcast bId pId un =>
      cases hr : mapGet bId bs with
      | none => simpa [BServer.handleMsg, hr] using h
      | some r =>
        simp only [BServer.handleMsg, hr]
        exact mapGet_isSome_mapSet _ _ _ _ h
    | leaveBroadcast bId pId =>
      cases hr : mapGet bId bs with
      | none => simpa [BServer.handleMsg, hr] using h
      | some r =>
        simp only [BServer.handleMsg, hr]
        exact mapGet_isSome_mapSet _ _ _ _ h
    | offerIn t sdp =>
      cases hc : ctx.currentBroadcastId with
      | none => simpa [BServer.handleMsg, hc] using h
      | some bId =>
        cases hr : mapGet bId bs with
        | none => simpa [BServer.handleMsg, hc, hr] using h
        | some r =>
          cases hv : mapGet t r.viewers with
          | none => simpa [BServer.handleMsg, hc, hr, hv] using h
          | some v =>
            by_cases ho : v.wsOpen <;>
              simpa [BServer.handleMsg, hc, hr, hv, ho] using h
    | answerIn t sdp =>
      cases hc : ctx.currentBroadcastId with
      | none => simpa [BServer.handleMsg, hc] using h
      | some bId =>
        cases hr : mapGet bId bs with
        | none => simpa [BServer.handleMsg, hc, hr] using h
        | some r =>
          cases hbr : r.broadcaster with
          | none => simpa [BServer.handleMsg, hc, hr, hbr] using h
          | some br =>
            by_cases ho : br.wsOpen <;>
              simpa [BServer.handleMsg, hc, hr, hbr, ho] using h
    | iceIn t cand =>
      cases hc : ctx.currentBroadcastId with
      | none => simpa [BServer.handleMsg, hc] using h
      | some bId =>
        cases hr : mapGet bId bs with
        | none => simpa [BServer.handleMsg, hc, hr] using h
        | some r =>
          by_cases hrole : ctx.currentRole = some BServer.Role.broadcaster
          · cases hv : mapGet t r.viewers with
            | none => simpa [BServer.handleMsg, hc, hr, hrole, hv] using h
            | some v =>
              by_cases ho : v.wsOpen <;>
                simpa [BServer.handleMsg, hc, hr, hrole, hv, ho] using h
          · cases hbr : r.broadcaster with
            | none => simpa [BServer.handleMsg, hc, hr, hrole, hbr] using h
            | some br =>
              by_cases ho : br.wsOpen <;>
                simpa [BServer.handleMsg, hc, hr, hrole, hbr, ho] using h
    | chatMessage bId text =>
      cases hr : mapGet bId bs with
      | none => simpa [BServer.handleMsg, hr] using h
      | some r => simpa [BServer.handleMsg, hr] using h
  · intro h
    cases h1 : bctx.currentBroadcastId with
    | none => simpa [BServer.handleClose, h1] using h
    | some bId =>
      cases h2 : bctx.currentPeerId with
      | none => simpa [BServer.handleClose, h1, h2] using h
      | some pId =>
        cases hr : mapGet bId bs with
        | none => simpa [BServer.handleClose, h1, h2, hr] using h
        | some r =>
          by_cases hrole : bctx.currentRole = some BServer.Role.broadcaster
          · simp only [BServer.handleClose, h1, h2, hr, hrole, if_pos]
            exact mapGet_isSome_mapSet _ _ _ _ h
          · simp only [BServer.handleClose, h1, h2, hr, hrole, if_neg,
              not_false_iff]
            exact mapGet_isSome_mapSet _ _ _ _ h
  · intro hroom
    refine ⟨?_, ?_, ?_⟩
    · intro hlive hvw
      simp [BServer.timerFire, hroom, hlive, hvw, mapGet_mapDelete_self]
    · intro hlive
      simp [BServer.timerFire, hroom, hlive]
    · intro hvw
      have : ¬ broom.viewers.length = 0 := by
        simpa [List.length_eq_zero] using hvw
      simp [BServer.timerFire, hroom, this]

/-- C6 witness: a two-member and a one-member mesh room close, a concrete
broadcaster disconnect, and a timer firing on a dead room. -/
theorem C6_room_lifecycle_grace_timer_witness :
    mapGet "r"
        (MeshServer.handleClose ⟨some "r", some "a"⟩
          ⟨[("r", [("a", true)])]⟩).1.rooms = none
    ∧ mapGet "B1"
        (BServer.handleClose ⟨some "B1", some "bp", "B", some BServer.Role.broadcaster⟩
          [("B1", ⟨"B1", some ⟨"bp", "B", true⟩, [], true⟩)]).broadcasts
        = some ⟨"B1", some ⟨"bp", "B", true⟩, [], false⟩
    ∧ (BServer.handleClose ⟨some "B1", some "bp", "B", some BServer.Role.broadcaster⟩
          [("B1", ⟨"B1", some ⟨"bp", "B", true⟩, [], true⟩)]).timers
        = [⟨30000, "B1"⟩]
    ∧ mapGet "B1"
        (BServer.timerFire "B1"
          [("B1", ⟨"B1", some ⟨"bp", "B", true⟩, [], false⟩)]) = none := by
  have h1 := C6_room_lifecycle_grace_timer ⟨[("r", [("a", true)])]⟩ "r" "a"
    [("a", true)] ⟨"F", 0⟩ BServer.ConnCtx.init
    ⟨some "B1", some "bp", "B", some BServer.Role.broadcaster⟩
    [("B1", ⟨"B1", some ⟨"bp", "B", true⟩, [], true⟩)] "B1" "bp"
    ⟨"B1", some ⟨"bp", "B", true⟩, [], true⟩ (.startBroadcast "B1")
  have h2 := C6_room_lifecycle_grace_timer ⟨[("r", [("a", true)])]⟩ "r" "a"
    [("a", true)] ⟨"F", 0⟩ BServer.ConnCtx.init
    ⟨some "B1", some "bp", "B", some BServer.Role.broadcaster⟩
    [("B1", ⟨"B1", some ⟨"bp", "B", true⟩, [], false⟩)] "B1" "bp"
    ⟨"B1", some ⟨"bp", "B", true⟩, [], false⟩ (.startBroadcast "B1")
  refine ⟨(h1.1 (by decide)).1 (by decide), ?_, ?_, ?_⟩
  · exact (h1.2.1 (by decide) (by decide) (by decide) (by decide)).1
  · exact (h1.2.1 (by decide) (by decide) (by decide) (by decide)).2
  · exact (h2.2.2.2.2 (by decide)).1 (by decide) (by decide)

/-- C8 counterexample: a chat message from viewer `v1` is fanned out to
every open member including `v1` itself — the sender receives its own
message back, contradicting the claimed sender exclusion. -/
theorem C8_cex_sender_receives_own_chat :
    BServer.SOut.toPeer "v1" (.chat 5 (some "v1") "V" "hi" 5) ∈
      (BServer.handleMsg ⟨"F", 5⟩
        ⟨some "B1", some "v1", "V", some BServer.Role.viewer⟩
        [("B1", ⟨"B1", some ⟨"bp", "B", true⟩, [("v1", ⟨"V", true⟩)], true⟩)]
        (.chatMessage "B1" "hi")).sends := by
  decide

/-- C8 amended: a `chat-message` for a registered room changes no state
and is fanned out to the broadcaster (if any, when its socket is open)
and to every viewer whose socket is open at send time — with no sender
exclusion, so a sender that is itself an open member receives its own
message back; nothing is delivered to closed sockets or to anyone outside
the room. -/
theorem C8_chat_fanout_includes_sender (env : BServer.Env)
    (ctx : BServer.ConnCtx) (bs : BServer.Broadcasts)
    (b text : String) (room : BServer.BroadcastRoom)
    (h : mapGet b bs = some room) :
    (BServer.handleMsg env ctx bs (.chatMessage b text)).ctx = ctx
    ∧ (BServer.handleMsg env ctx bs (.chatMessage b text)).broadcasts = bs
    ∧ (∀ v ∈ room.viewers, v.2.wsOpen = true →
        BServer.SOut.toPeer v.1
            (.chat env.now ctx.currentPeerId ctx.currentUsername text env.now) ∈
          (BServer.handleMsg env ctx bs (.chatMessage b text)).sends)
    ∧ (∀ br : BServer.BroadcasterInfo, room.broadcaster = some br →
        br.wsOpen = true →
        BServer.SOut.toPeer br.peerId
            (.chat env.now ctx.currentPeerId ctx.currentUsername text env.now) ∈
          (BServer.handleMsg env ctx bs (.chatMessage b text)).sends)
    ∧ (∀ o ∈ (BServer.handleMsg env ctx bs (.chatMessage b text)).sends,
        ∃ d, o = BServer.SOut.toPeer d
            (.chat env.now ctx.currentPeerId ctx.currentUsername text env.now)
          ∧ ((∃ br : BServer.BroadcasterInfo,
                room.broadcaster = some br ∧ br.wsOpen = true ∧ d = br.peerId)
             ∨ (∃ v ∈ room.viewers, v.2.wsOpen = true ∧ d = v.1))) := by
  refine ⟨?_, ?_, ?_, ?_, ?_⟩
  · simp [BServer.handleMsg, h]
  · simp [BServer.handleMsg, h]
  · intro v hv hopen
    simp only [BServer.handleMsg, h]
    apply List.mem_append_right
    exact List.mem_map.mpr
      ⟨v, List.mem_filter.mpr ⟨hv, by simp [hopen]⟩, rfl⟩
  · intro br hbr hopen
    simp only [BServer.handleMsg, h, hbr, hopen, if_pos]
    exact List.mem_append_left _ (List.mem_singleton.mpr rfl)
  · intro o ho
    simp only [BServer.handleMsg, h] at ho
    rcases List.mem_append.mp ho with hleft | hright
    · cases hbr : room.broadcaster with
      | none =>
        simp only [hbr] at hleft
        cases hleft
      | some br =>
        simp only [hbr] at hleft
        by_cases hopen : br.wsOpen = true
        · simp only [hopen, if_true] at hleft
          rcases List.mem_singleton.mp hleft with rfl
          exact ⟨br.peerId, rfl, Or.inl ⟨br, rfl, hopen, rfl⟩⟩
        · simp [hopen] at hleft
    · rcases List.mem_map.mp hright with ⟨v, hvmem, rfl⟩
      rcases List.mem_filter.mp hvmem with ⟨hvroom, hvopen⟩
      exact ⟨v.1, rfl, Or.inr ⟨v, hvroom, by simpa using hvopen, rfl⟩⟩

/-- C8 witness: the concrete two-member room of the counterexample — both
the broadcaster and the sending viewer are among the recipients. -/
theorem C8_chat_fanout_includes_sender_witness :
    BServer.SOut.toPeer "bp" (.chat 5 (some "v1") "V" "hi" 5) ∈
      (BServer.handleMsg ⟨"F", 5⟩
        ⟨some "B1", some "v1", "V", some BServer.Role.viewer⟩
        [("B1", ⟨"B1", some ⟨"bp", "B", true⟩, [("v1", ⟨"V", true⟩)], true⟩)]
        (.chatMessage "B1" "hi")).sends
    ∧ (BServer.handleMsg ⟨"F", 5⟩
        ⟨some "B1", some "v1", "V", some BServer.Role.viewer⟩
        [("B1", ⟨"B1", some ⟨"bp", "B", true⟩, [("v1", ⟨"V", true⟩)], true⟩)]
        (.chatMessage "B1" "hi")).broadcasts
      = [("B1", ⟨"B1", some ⟨"bp", "B", true⟩, [("v1", ⟨"V", true⟩)], true⟩)] := by
  have h := C8_chat_fanout_includes_sender ⟨"F", 5⟩
    ⟨some "B1", some "v1", "V", some BServer.Role.viewer⟩
    [("B1", ⟨"B1", some ⟨"bp", "B", true⟩, [("v1", ⟨"V", true⟩)], true⟩)]
    "B1" "hi" ⟨"B1", some ⟨"bp", "B", true⟩, [("v1", ⟨"V", true⟩)], true⟩
    (by decide)
  exact ⟨h.2.2.2.1 ⟨"bp", "B", true⟩ (by decide) (by decide), h.2.1⟩

/-- C9 counterexample: with two connected viewers (count 2), removing
viewer `a` twice — as happens when the duplicate `viewer-left` from an
explicit leave followed by the transport close reaches the broadcaster —
drops `viewerCount` to 0 although viewer `b` is still present: the second
removal is not a no-op on the viewer count. -/
theorem C9_cex_double_remove_decrements_count :
    let c0 : Broadcaster.HookState :=
      ⟨[⟨"a", "A"⟩, ⟨"b", "B"⟩], 2,
       [("a", ⟨0, true, []⟩), ("b", ⟨1, true, []⟩)], [], 2, []⟩
    (Broadcaster.removeViewer "a" c0).viewerCount = 1
    ∧ (Broadcaster.removeViewer "a" (Broadcaster.removeViewer "a" c0)).viewerCount = 0
    ∧ (Broadcaster.removeViewer "a" (Broadcaster.removeViewer "a" c0)).viewers
        = [⟨"b", "B"⟩] := by
  decide

/-- C9 amended: leaving twice (explicit `leave-broadcast` followed by the
transport close of the same viewer connection) removes the viewer from
the server room only once — the close step leaves the membership exactly
as after the leave step — but the server sends the broadcaster a second
`viewer-left` notice, and on the broadcaster client `removeViewer` run
twice is a no-op on the viewer list and the connection map while it
decrements `viewerCount` once more (clamped at zero). -/
theorem C9_double_leave_cleanup (env : BServer.Env) (ctx : BServer.ConnCtx)
    (bs : BServer.Broadcasts) (b p u : String)
    (room : BServer.BroadcastRoom) (h : mapGet b bs = some room)
    (c : Broadcaster.HookState) (v : String) :
    ((mapGet b
        (BServer.handleMsg env ctx bs (.leaveBroadcast b p)).broadcasts).map
          (fun r => r.viewers) = some (mapDelete p room.viewers))
    ∧ ((mapGet b
          (BServer.handleClose ⟨some b, some p, u, some BServer.Role.viewer⟩
            (BServer.handleMsg env ctx bs (.leaveBroadcast b p)).broadcasts).broadcasts).map
            (fun r => r.viewers) = some (mapDelete p room.viewers))
    ∧ (∀ br : BServer.BroadcasterInfo, room.broadcaster = some br →
        br.wsOpen = true →
        BServer.SOut.toPeer br.peerId (.viewerLeft p) ∈
          (BServer.handleClose ⟨some b, some p, u, some BServer.Role.viewer⟩
            (BServer.handleMsg env ctx bs (.leaveBroadcast b p)).broadcasts).sends)
    ∧ (Broadcaster.removeViewer v (Broadcaster.removeViewer v c)).viewers
        = (Broadcaster.removeViewer v c).viewers
    ∧ (Broadcaster.removeViewer v (Broadcaster.removeViewer v c)).peerConnections
        = (Broadcaster.removeViewer v c).peerConnections
    ∧ (Broadcaster.removeViewer v (Broadcaster.removeViewer v c)).viewerCount
        = (Broadcaster.removeViewer v c).viewerCount - 1 := by
  have hstep :
      (BServer.handleMsg env ctx bs (.leaveBroadcast b p)).broadcasts
        = mapSet b { room with viewers := mapDelete p room.viewers } bs := by
    simp [BServer.handleMsg, h]
  have hget :
      mapGet b (BServer.handleMsg env ctx bs (.leaveBroadcast b p)).broadcasts
        = some { room with viewers := mapDelete p room.viewers } := by
    rw [hstep]; exact mapGet_mapSet_self _ _ _
  refine ⟨?_, ?_, ?_, ?_, ?_, ?_⟩
  · rw [hget]; rfl
  · simp only [BServer.handleClose, hget]
    simp [mapGet_mapSet_self, mapDelete_idem]
  · intro br hbr hopen
    simp only [BServer.handleClose, hget]
    simp [hbr, hopen]
  · simp [Broadcaster.removeViewer, List.filter_filter]
  · simp [Broadcaster.removeViewer, mapDelete_idem]
  · rfl

/-- C9 witness: concrete two-viewer room and client state. -/
theorem C9_double_leave_cleanup_witness :
    ((mapGet "B1"
        (BServer.handleClose ⟨some "B1", some "a", "A", some BServer.Role.viewer⟩
          (BServer.handleMsg ⟨"F", 0⟩
            ⟨some "B1", some "a", "A", some BServer.Role.viewer⟩
            [("B1", ⟨"B1", some ⟨"bp", "B", true⟩,
              [("a", ⟨"A", true⟩), ("b", ⟨"B2", true⟩)], true⟩)]
            (.leaveBroadcast "B1" "a")).broadcasts).broadcasts).map
          (fun r => r.viewers) = some [("b", ⟨"B2", true⟩)])
    ∧ BServer.SOut.toPeer "bp" (.viewerLeft "a") ∈
        (BServer.handleClose ⟨some "B1", some "a", "A", some BServer.Role.viewer⟩
          (BServer.handleMsg ⟨"F", 0⟩
            ⟨some "B1", some "a", "A", some BServer.Role.viewer⟩
            [("B1", ⟨"B1", some ⟨"bp", "B", true⟩,
              [("a", ⟨"A", true⟩), ("b", ⟨"B2", true⟩)], true⟩)]
            (.leaveBroadcast "B1" "a")).broadcasts).sends
    ∧ (Broadcaster.removeViewer "a"
          (Broadcaster.removeViewer "a"
            ⟨[⟨"a", "A"⟩, ⟨"b", "B"⟩], 2,
             [("a", ⟨0, true, []⟩), ("b", ⟨1, true, []⟩)], [], 2, []⟩)).viewers
        = (Broadcaster.removeViewer "a"
            ⟨[⟨"a", "A"⟩, ⟨"b", "B"⟩], 2,
             [("a", ⟨0, true, []⟩), ("b", ⟨1, true, []⟩)], [], 2, []⟩).viewers := by
  have h := C9_double_leave_cleanup ⟨"F", 0⟩
    ⟨some "B1", some "a", "A", some BServer.Role.viewer⟩
    [("B1", ⟨"B1", some ⟨"bp", "B", true⟩,
      [("a", ⟨"A", true⟩), ("b", ⟨"B2", true⟩)], true⟩)]
    "B1" "a" "A"
    ⟨"B1", some ⟨"bp", "B", true⟩, [("a", ⟨"A", true⟩), ("b", ⟨"B2", true⟩)], true⟩
    (by decide)
    ⟨[⟨"a", "A"⟩, ⟨"b", "B"⟩], 2,
     [("a", ⟨0, true, []⟩), ("b", ⟨1, true, []⟩)], [], 2, []⟩ "a"
  refine ⟨?_, h.2.2.1 ⟨"bp", "B", true⟩ (by decide) (by decide), h.2.2.2.1⟩
  have h2 := h.2.1
  simpa using h2

namespace BApp

/-- App views (`AppView` in the broadcast example). -/
inductive AppView
  | home
  | broadcasterLobby
  | viewerLobby
  | broadcasting
  | viewing
  deriving DecidableEq, Repr

/-- State of the `useViewerWebRTC` hook: single optional connection,
remote-description flag, applied and pending candidates. -/
structure ViewerRTC where
  hasConnection : Bool
  hasRemoteDescription : Bool
  appliedCandidates : List Nat
  pendingCandidates : List Nat
  deriving DecidableEq, Repr

def ViewerRTC.init : ViewerRTC := ⟨false, false, [], []⟩

/-- Viewer `handleOffer(sdp)`: create the connection if missing, apply
the remote description, drain the queued candidates, and send an answer
routed to the broadcaster (payloads are opaque markers). -/
def viewerHandleOffer (sdp : Nat) (v : ViewerRTC) : ViewerRTC × List BServer.CMsg :=
  ({ v with
     hasConnection := true
     hasRemoteDescription := true
     appliedCandidates := v.appliedCandidates ++ v.pendingCandidates
     pendingCandidates := [] },
   [.answerIn "broadcaster" sdp])

/-- Viewer `handleIceCandidate(candidate)`: queue when the connection is
missing or has no remote description, else apply. -/
def viewerHandleIce (cand : Nat) (v : ViewerRTC) : ViewerRTC :=
  if !v.hasConnection || !v.hasRemoteDescription then
    { v with pendingCandidates := v.pendingCandidates ++ [cand] }
  else { v with appliedCandidates := v.appliedCandidates ++ [cand] }

/-- A chat entry appended to the `messages` state. -/
structure ChatEntry where
  id : Nat
  sender : Option String
  username : String
  text : String
  timestamp : Nat
  deriving DecidableEq, Repr

/-- Client-side application state of the broadcast example `App`. -/
structure AppState where
  view : AppView
  broadcastId : Option String
  isLive : Bool
  broadcasterUsername : Option String
  isConnecting : Bool
  messages : List ChatEntry
  broadcaster : Broadcaster.HookState
  viewer : ViewerRTC
  outbox : List BServer.CMsg
  deriving DecidableEq, Repr

/-- Source `handleSignalingMessage` of the broadcast example `App`: dispatch on
the inbound server message. A connection for a viewer is created only in
the `viewer-joined` case and only while the view is `broadcasting`. -/
def handleAppMsg (c : AppState) : BServer.SMsg → AppState
  | .broadcastCreated b => { c with broadcastId := some b }
  | .broadcastInfo _ live uname =>
    { c with broadcasterUsername := some uname, isLive := live,
             isConnecting := false }
  | .broadcastStarted _ => { c with isLive := true }
  | .broadcastEnded _ =>
    { c with isLive := false,
             view := if c.view = .viewing then .viewerLobby else c.view }
  | .viewerJoined p uname =>
    if c.view = .broadcasting then
      { c with broadcaster :=
          Broadcaster.createConnectionForViewer p uname c.broadcaster }
    else c
  | .viewerLeft p =>
    { c with broadcaster := Broadcaster.removeViewer p c.broadcaster }
  | .viewerCount _ => c
  | .offerOut _ sdp =>
    if c.view = .viewing || c.view = .viewerLobby then
      { c with view := .viewing
               viewer := (viewerHandleOffer sdp c.viewer).1
               outbox := c.outbox ++ (viewerHandleOffer sdp c.viewer).2 }
    else c
  | .answerOut sender _ =>
    if c.view = .broadcasting then
      match sender with
      | some f =>
        if f = "" then c
        else { c with broadcaster := Broadcaster.handleAnswer f c.broadcaster }
      | none => c
    else c
  | .iceOut sender cand =>
    if c.view = .broadcasting then
      match sender with
      | some f =>
        if f = "" then c
        else { c with broadcaster :=
                 Broadcaster.handleIceCandidate f cand c.broadcaster }
      | none => c
    else if c.view = .viewing then
      { c with viewer := viewerHandleIce cand c.viewer }
    else c
  | .chat id sender uname text ts =>
    { c with messages := c.messages ++ [⟨id, sender, uname, text, ts⟩] }
  | .errorMsg _ => c

/-- Source `handleGoLive`: send `start-broadcast`, set the live flag, and switch
to the broadcasting view. No connection toward any already-joined viewer
is created here. -/
def handleGoLive (c : AppState) : AppState :=
  match c.broadcastId with
  | none => c
  | some b =>
    { c with isLive := true, view := .broadcasting,
             outbox := c.outbox ++ [.startBroadcast b] }

/-- Source `handleJoinAsViewer` (viewer lobby `Watch` button): only a view
change, no message is sent. -/
def handleJoinAsViewer (c : AppState) : AppState := { c with view := .viewing }

/-- Payload of an outgoing server write. -/
def payloadOf : BServer.SOut → BServer.SMsg
  | .toSender m => m
  | .toPeer _ m => m

def isViewerJoinedMsg : BServer.SMsg → Bool
  | .viewerJoined _ _ => true
  | _ => false

def isOfferMsg : BServer.SMsg → Bool
  | .offerOut _ _ => true
  | _ => false

end BApp

namespace PreLive

/-- Concrete pre-live scenario: broadcaster `bp` creates broadcast `B1`
while in the lobby; viewer `v1` joins before the broadcast goes live;
then the broadcaster goes live. -/
def env : BServer.Env := ⟨"B1", 0⟩

def createStep : BServer.Step :=
  BServer.handleMsg env BServer.ConnCtx.init [] (.createBroadcast "bp" "B")

def clientLobby : BApp.AppState :=
  ⟨.broadcasterLobby, none, false, none, false, [],
   Broadcaster.HookState.init, BApp.ViewerRTC.init, []⟩

def clientWithId : BApp.AppState :=
  BApp.handleAppMsg clientLobby (.broadcastCreated "B1")

def joinStep : BServer.Step :=
  BServer.handleMsg env BServer.ConnCtx.init createStep.broadcasts
    (.joinBroadcast "B1" "v1" "Vee")

/-- The broadcaster client processes the `viewer-joined` notice while
still in the lobby. -/
def clientAfterJoinNotice : BApp.AppState :=
  BApp.handleAppMsg clientWithId (.viewerJoined "v1" "Vee")

/-- The broadcaster goes live. -/
def clientLive : BApp.AppState := BApp.handleGoLive clientAfterJoinNotice

/-- The server handles the resulting `start-broadcast`. -/
def startStep : BServer.Step :=
  BServer.handleMsg env createStep.ctx joinStep.broadcasts (.startBroadcast "B1")

/-- The viewer client processes `broadcast-started` and clicks watch. -/
def viewerFinal : BApp.AppState :=
  BApp.handleJoinAsViewer
    (BApp.handleAppMsg
      (BApp.handleAppMsg
        ⟨.viewerLobby, some "B1", false, none, true, [],
         Broadcaster.HookState.init, BApp.ViewerRTC.init, []⟩
        (.broadcastInfo "B1" false "B"))
      (.broadcastStarted "B1"))

end PreLive

/-- C7 counterexample: in the concrete pre-live trace, after the
broadcaster goes live no session initiation happens toward viewer `v1`:
the broadcaster client holds no peer connection and has sent no offer,
the server's `start-broadcast` handling emitted only `broadcast-started`
(no offer, no repeated `viewer-joined`), and the viewer client emits
nothing further — the system is quiescent with `v1` never offered a
connection, contradicting the claim that go-live re-triggers initiation
toward pre-live viewers. -/
theorem C7_cex_prelive_viewer_never_offered :
    PreLive.clientLive.broadcaster.peerConnections = []
    ∧ PreLive.clientLive.broadcaster.outbox = []
    ∧ PreLive.clientLive.view = BApp.AppView.broadcasting
    ∧ (∀ o ∈ PreLive.startStep.sends, BApp.payloadOf o = .broadcastStarted "B1")
    ∧ PreLive.startStep.sends = [.toPeer "v1" (.broadcastStarted "B1")]
    ∧ PreLive.viewerFinal.outbox = [] := by
  decide

/-- C7 amended: going live re-triggers no session initiation. The
server's `start-broadcast` handling emits only `broadcast-started`
notices (never an offer or a `viewer-joined`); `viewer-joined` notices
are emitted by the server only while handling a `join-broadcast`; and on
the broadcaster client a connection toward a peer `p` (the sole source of
offers to `p`) comes into existence only through a `viewer-joined` notice
for `p` processed while the view is `broadcasting` — so a viewer who
joined before the broadcast went live, whose `viewer-joined` arrived in
the lobby, has no connection initiated toward it by the go-live
transition. -/
theorem C7_golive_no_retrigger (envA : BServer.Env) (ctx : BServer.ConnCtx)
    (bs : BServer.Broadcasts) (b : String) (m : BServer.CMsg)
    (c : BApp.AppState) (msg : BServer.SMsg) (p : String) :
    (∀ o ∈ (BServer.handleMsg envA ctx bs (.startBroadcast b)).sends,
        BApp.payloadOf o = .broadcastStarted b)
    ∧ ((∀ bId pId u, m ≠ .joinBroadcast bId pId u) →
        ∀ o ∈ (BServer.handleMsg envA ctx bs m).sends,
          BApp.isViewerJoinedMsg (BApp.payloadOf o) = false)
    ∧ (mapGet p c.broadcaster.peerConnections = none →
        mapGet p (BApp.handleAppMsg c msg).broadcaster.peerConnections = none
        ∨ (∃ u, msg = .viewerJoined p u ∧ c.view = .broadcasting))
    ∧ (mapGet p c.broadcaster.peerConnections = none →
        mapGet p (BApp.handleGoLive c).broadcaster.peerConnections = none) := by
  refine ⟨?_, ?_, ?_, ?_⟩
  · intro o ho
    cases hr : mapGet b bs with
    | none => simp [BServer.handleMsg, hr] at ho
    | some room =>
      by_cases hg : BServer.fromBroadcaster room ctx
      · simp only [BServer.handleMsg, hr, hg, if_pos] at ho
        rcases List.mem_map.mp ho with ⟨v, _, rfl⟩
        rfl
      · simp [BServer.handleMsg, hr, hg] at ho
  · intro hm o ho
    cases m with
    | createBroadcast pId un =>
      simp only [BServer.handleMsg] at ho
      rcases List.mem_singleton.mp ho with rfl
      rfl
    | startBroadcast bId =>
      cases hr : mapGet bId bs with
      | none => simp [BServer.handleMsg, hr] at ho
      | some r =>
        by_cases hg : BServer.fromBroadcaster r ctx
        · simp only [BServer.handleMsg, hr, hg, if_pos] at ho
          rcases List.mem_map.mp ho with ⟨v, _, rfl⟩
          rfl
        · simp [BServer.handleMsg, hr, hg] at ho
    | endBroadcast bId =>
      cases hr : mapGet bId bs with
      | none => simp [BServer.handleMsg, hr] at ho
      | some r =>
        by_cases hg : BServer.fromBroadcaster r ctx
        · simp only [BServer.handleMsg, hr, hg, if_pos] at ho
          rcases List.mem_map.mp ho with ⟨v, _, rfl⟩
          rfl
        · simp [BServer.handleMsg, hr, hg] at ho
    | joinBroadcast bId pId un => exact absurd rfl (hm bId pId un)
    | leaveBroadcast bId pId =>
      cases hr : mapGet bId bs with
      | none => simp [BServer.handleMsg, hr] at ho
      | some r =>
        simp only [BServer.handleMsg, hr] at ho
        cases hbr : r.broadcaster with
        | none => simp [hbr] at ho
        | some br =>
          simp only [hbr] at ho
          by_cases hop : br.wsOpen = true
          · simp only [hop, if_true] at ho
            rcases List.mem_cons.mp ho with rfl | ho2
            · rfl
            · rcases List.mem_singleton.mp ho2 with rfl
              rfl
          · simp [hop] at ho
    | offerIn t sdp =>
      cases hc : ctx.currentBroadcastId with
      | none => simp [BServer.handleMsg, hc] at ho
      | some bId =>
        cases hr : mapGet bId bs with
        | none => simp [BServer.handleMsg, hc, hr] at ho
        | some r =>
          cases hv : mapGet t r.viewers with
          | none => simp [BServer.handleMsg, hc, hr, hv] at ho
          | some v =>
            by_cases hop : v.wsOpen = true
            · simp only [BServer.handleMsg, hc, hr, hv, hop, if_true] at ho
              rcases List.mem_singleton.mp ho with rfl
              rfl
            · simp [BServer.handleMsg, hc, hr, hv, hop] at ho
    | answerIn t sdp =>
      cases hc : ctx.currentBroadcastId with
      | none => simp [BServer.handleMsg, hc] at ho
      | some bId =>
        cases hr : mapGet bId bs with
        | none => simp [BServer.handleMsg, hc, hr] at ho
        | some r =>
          cases hbr : r.broadcaster with
          | none => simp [BServer.handleMsg, hc, hr, hbr] at ho
          | some br =>
            by_cases hop : br.wsOpen = true
            · simp only [BServer.handleMsg, hc, hr, hbr, hop, if_true] at ho
              rcases List.mem_singleton.mp ho with rfl
              rfl
            · simp [BServer.handleMsg, hc, hr, hbr, hop] at ho
    | iceIn t cand =>
      cases hc : ctx.currentBroadcastId with
      | none => simp [BServer.handleMsg, hc] at ho
      | some bId =>
        cases hr : mapGet bId bs with
        | none => simp [BServer.handleMsg, hc, hr] at ho
        | some r =>
          by_cases hrole : ctx.currentRole = some BServer.Role.broadcaster
          · cases hv : mapGet t r.viewers with
            | none => simp [BServer.handleMsg, hc, hr, hrole, hv] at ho
            | some v =>
              by_cases hop : v.wsOpen = true
              · simp only [BServer.handleMsg, hc, hr, hrole, if_pos, hv, hop,
                  if_true] at ho
                rcases List.mem_singleton.mp ho with rfl
                rfl
              · simp [BServer.handleMsg, hc, hr, hrole, hv, hop] at ho
          · cases hbr : r.broadcaster with
            | none => simp [BServer.handleMsg, hc, hr, hrole, hbr] at ho
            | some br =>
              by_cases hop : br.wsOpen = true
              · simp only [BServer.handleMsg, hc, hr, hrole, if_neg, hbr, hop,
                  if_true] at ho
                rcases List.mem_singleton.mp ho with rfl
                rfl
              · simp [BServer.handleMsg, hc, hr, hrole, hbr, hop] at ho
    | chatMessage bId text =>
      cases hr : mapGet bId bs with
      | none => simp [BServer.handleMsg, hr] at ho
      | some r =>
        simp only [BServer.handleMsg, hr] at ho
        rcases List.mem_append.mp ho with hleft | hright
        · cases hbr : r.broadcaster with
          | none => simp [hbr] at hleft
          | some br =>
            simp only [hbr] at hleft
            by_cases hop : br.wsOpen = true
            · simp only [hop, if_true] at hleft
              rcases List.mem_singleton.mp hleft with rfl
              rfl
            · simp [hop] at hleft
        · rcases List.mem_map.mp hright with ⟨v, _, rfl⟩
          rfl
  · intro h
    cases msg with
    | broadcastCreated bId => exact Or.inl h
    | broadcastInfo bId live un => exact Or.inl h
    | broadcastStarted bId => exact Or.inl h
    | broadcastEnded bId => exact Or.inl h
    | viewerJoined q un =>
      by_cases hview : c.view = BApp.AppView.broadcasting
      · by_cases hq : q = p
        · subst hq
          exact Or.inr ⟨un, rfl, hview⟩
        · refine Or.inl ?_
          simp only [BApp.handleAppMsg, hview, if_pos]
          by_cases hex : (mapGet q c.broadcaster.peerConnections).isSome
          · simpa [Broadcaster.createConnectionForViewer, hex] using h
          · simp only [Broadcaster.createConnectionForViewer, hex,
              Bool.false_eq_true, if_neg, not_false_iff]
            rw [mapGet_mapSet_ne q p _ _ (fun hpq => hq (hpq.symm))]
            exact h
      · refine Or.inl ?_
        simp only [BApp.handleAppMsg, hview, if_neg, not_false_iff]
        exact h
    | viewerLeft q =>
      refine Or.inl ?_
      simp only [BApp.handleAppMsg, Broadcaster.removeViewer]
      by_cases hq : p = q
      · subst hq
        exact mapGet_mapDelete_self _ _
      · rw [mapGet_mapDelete_ne q p _ hq]
        exact h
    | viewerCount n => exact Or.inl h
    | offerOut sender sdp =>
      refine Or.inl ?_
      by_cases hview : (c.view = BApp.AppView.viewing
          || c.view = BApp.AppView.viewerLobby) = true
      · simpa [BApp.handleAppMsg, hview] using h
      · simpa [BApp.handleAppMsg, hview] using h
    | answerOut sender sdp =>
      refine Or.inl ?_
      by_cases hview : c.view = BApp.AppView.broadcasting
      · cases sender with
        | none => simpa [BApp.handleAppMsg, hview] using h
        | some f =>
          by_cases hf : f = ""
          · simpa [BApp.handleAppMsg, hview, hf] using h
          · simp only [BApp.handleAppMsg, hview, if_pos, hf, if_neg,
              not_false_iff]
            cases hg : mapGet f c.broadcaster.peerConnections with
            | none => simpa [Broadcaster.handleAnswer, hg] using h
            | some pc =>
              have hfp : ¬ p = f := by
                intro hpf
                rw [hpf] at h
                rw [h] at hg
                cases hg
              simp only [Broadcaster.handleAnswer, hg]
              rw [mapGet_mapSet_ne f p _ _ hfp]
              exact h
      · simpa [BApp.handleAppMsg, hview] using h
    | iceOut sender cand =>
      refine Or.inl ?_
      by_cases hview : c.view = BApp.AppView.broadcasting
      · cases sender with
        | none => simpa [BApp.handleAppMsg, hview] using h
        | some f =>
          by_cases hf : f = ""
          · simpa [BApp.handleAppMsg, hview, hf] using h
          · simp only [BApp.handleAppMsg, hview, if_pos, hf, if_neg,
              not_false_iff]
            cases hg : mapGet f c.broadcaster.peerConnections with
            | none => simpa [Broadcaster.handleIceCandidate, hg] using h
            | some pc =>
              have hfp : ¬ p = f := by
                intro hpf
                rw [hpf] at h
                rw [h] at hg
                cases hg
              by_cases hrd : pc.hasRemoteDescription = true
              · simp only [Broadcaster.handleIceCandidate, hg, hrd, if_true]
                rw [mapGet_mapSet_ne f p _ _ hfp]
                exact h
              · simpa [Broadcaster.handleIceCandidate, hg, hrd] using h
      · by_cases hv2 : c.view = BApp.AppView.viewing
        · simpa [BApp.handleAppMsg, hview, hv2] using h
        · simpa [BApp.handleAppMsg, hview, hv2] using h
    | chat id sender un text ts => exact Or.inl h
    | errorMsg t => exact Or.inl h
  · intro h
    cases hb : c.broadcastId with
    | none => simpa [BApp.handleGoLive, hb] using h
    | some bId => simpa [BApp.handleGoLive, hb] using h

/-- C7 witness: the concrete pre-live trace discharging the amended
theorem's hypotheses — processing the pre-live `viewer-joined` in the
lobby creates no connection, and going live creates none either. -/
theorem C7_golive_no_retrigger_witness :
    mapGet "v1"
        (BApp.handleAppMsg PreLive.clientWithId
          (.viewerJoined "v1" "Vee")).broadcaster.peerConnections = none
    ∧ mapGet "v1"
        (BApp.handleGoLive PreLive.clientAfterJoinNotice).broadcaster.peerConnections
        = none
    ∧ (∀ o ∈ (BServer.handleMsg PreLive.env PreLive.createStep.ctx
          PreLive.joinStep.broadcasts (.startBroadcast "B1")).sends,
        BApp.payloadOf o = .broadcastStarted "B1") := by
  have h1 := C7_golive_no_retrigger PreLive.env PreLive.createStep.ctx
    PreLive.joinStep.broadcasts "B1" (.startBroadcast "B1")
    PreLive.clientWithId (.viewerJoined "v1" "Vee") "v1"
  have h2 := C7_golive_no_retrigger PreLive.env PreLive.createStep.ctx
    PreLive.joinStep.broadcasts "B1" (.startBroadcast "B1")
    PreLive.clientAfterJoinNotice (.viewerJoined "v1" "Vee") "v1"
  refine ⟨?_, h2.2.2.2 (by decide), h1.1⟩
  rcases h1.2.2.1 (by decide) with hnone | ⟨u, _, hview⟩
  · exact hnone
  · exact absurd hview (by decide)
